import Mathlib

/-!
Verification of the BCDI preprocessing core
(`bcdi/preprocessing/preprocessing_utils.py`).

This file shallowly embeds the number-shaping utilities
(`primes`, `try_smaller_primes`, `smaller_primes`, `higher_primes`),
the padding primitive (`zero_pad`), monitor normalization
(`normalize_dataset`) and the centering/crop/pad engine (`center_fft`)
as executable Lean functions, and proves the spec claims about them.

Conventions of the embedding:
* Python exceptions (ValueError, IndexError, AssertionError, numpy
  broadcast errors) are modelled by `Option`: a raised exception is
  `none`.
* Python/numpy integers are `Int` (arbitrary precision, like Python),
  array shapes are `Nat`.
* Float-valued arrays (intensities, q grids, monitor counts) are
  modelled over `ℚ`: every arithmetic operation the embedded code
  performs on them is exact at the modelled call sites (in particular
  `pad_size[k]/2` is only evaluated on even values, which the code
  validates beforehand).
* Unbounded `while` loops are embedded with an explicit fuel
  parameter; running out of fuel is `none`.  Loops that provably
  terminate get enough fuel at every internal call site.
-/

set_option maxRecDepth 100000

namespace BCDI

/-! ## Number-shaping utilities -/

/-- Trial-division loop of `primes` (preprocessing_utils.py:1102-1122).
`fuel` bounds the number of loop iterations; the internal call sites
pass `n` which is sufficient (the loop increments `i` at most `√n`
times and divides `n` at most `log₂ n` times). -/
def primesAux (fuel : Nat) (i : Nat) (n : Nat) : Option (List Nat) :=
  match fuel with
  | 0 => none
  | fuel + 1 =>
    if i * i ≤ n then
      if n % i = 0 then
        (primesAux fuel i (n / i)).map (fun l => i :: l)
      else
        primesAux fuel (i + 1) n
    else
      if 1 < n then some [n] else some []

/-- `primes(number)` (preprocessing_utils.py:1102-1122): prime
decomposition by trial division.  The list is seeded with `1`
(`list_primes = [1]` in the source).  `none` models the
`assert number > 0` failure. -/
def primes (number : Int) : Option (List Nat) :=
  if 0 < number then
    (primesAux number.toNat 2 number.toNat).map (fun l => 1 :: l)
  else
    none

/-- `try_smaller_primes(number, maxprime, required_dividers)`
(preprocessing_utils.py:1370-1387): true iff the largest prime factor
is ≤ `maxprime` and `number` is divisible by every required divider. -/
def try_smaller_primes (number : Int) (maxprime : Nat) (required_dividers : List Nat) :
    Option Bool :=
  (primes number).map (fun p =>
    decide (p.foldr max 0 ≤ maxprime) &&
      required_dividers.all (fun k => number % (k : Int) == 0))

/-- Decrementing search loop of `smaller_primes`
(preprocessing_utils.py:1338-1367).  The loop runs at most `n` times,
so fuel `n + 1` always suffices; exhaustion is modelled as `none`. -/
def smallerLoop (maxprime : Nat) (divs : List Nat) : Nat → Int → Option Int
  | 0, _ => none
  | fuel + 1, n =>
    match try_smaller_primes n maxprime divs with
    | none => none
    | some true => some n
    | some false =>
      if n - 1 = 0 then some 0 else smallerLoop maxprime divs fuel (n - 1)

/-- Incrementing search loop of `higher_primes`
(preprocessing_utils.py:565-596), including the (dead) wrap-around
check `if number == limit: return limit` of the source. -/
def higherLoop (limit : Int) (maxprime : Nat) (divs : List Nat) : Nat → Int → Option Int
  | 0, _ => none
  | fuel + 1, n =>
    match try_smaller_primes n maxprime divs with
    | none => none
    | some true => some n
    | some false =>
      if n + 1 = limit then some limit else higherLoop limit maxprime divs fuel (n + 1)

/-- A Python value as consumed/produced by `smaller_primes`: a scalar
integer, a list, a tuple or a numpy array of integers. -/
inductive PyVal : Type
  | int (n : Int)
  | list (xs : List Int)
  | tuple (xs : List Int)
  | array (xs : List Int)
  deriving DecidableEq, Repr

/-- Element-wise loop of the sequence branch of `smaller_primes`: the
`assert` is checked per element, and reaching 0 for any element makes
the whole call `return 0` (a scalar!). -/
def smallerSeq (maxprime : Nat) (divs : List Nat) : List Int → Option (Option (List Int))
  | [] => some (some [])
  | i :: rest =>
    if 1 < i ∧ (maxprime : Int) ≤ i then
      match smallerLoop maxprime divs (i.toNat + 1) i with
      | none => none
      | some r =>
        if r = 0 then some none  -- `return 0` for the whole call
        else (smallerSeq maxprime divs rest).map (Option.map (fun vn => r :: vn))
    else none

/-- `smaller_primes(number, maxprime, required_dividers)`
(preprocessing_utils.py:1338-1367).  Note that the sequence branch
accumulates results in a Python *list* `vn` and returns `vn` as-is
unless the input was a numpy array: a tuple input yields a list. -/
def smaller_primes (number : PyVal) (maxprime : Nat) (divs : List Nat) : Option PyVal :=
  match number with
  | .list xs =>
    (smallerSeq maxprime divs xs).map (fun res =>
      match res with
      | none => .int 0
      | some vn => .list vn)
  | .tuple xs =>
    (smallerSeq maxprime divs xs).map (fun res =>
      match res with
      | none => .int 0
      | some vn => .list vn)
  | .array xs =>
    (smallerSeq maxprime divs xs).map (fun res =>
      match res with
      | none => .int 0
      | some vn => .array vn)
  | .int n =>
    if 1 < n ∧ (maxprime : Int) ≤ n then
      (smallerLoop maxprime divs (n.toNat + 1) n).map .int
    else none

/-- Scalar branch of `higher_primes(number, maxprime, required_dividers)`
(preprocessing_utils.py:565-596). `fuel` bounds the increasing search;
the engine's call sites pass enough fuel for the constraint
`maxprime = 7`, `required_dividers = (2,)`. -/
def higher_primes (number : Int) (maxprime : Nat) (divs : List Nat) (fuel : Nat) :
    Option Int :=
  if 1 < number ∧ (maxprime : Int) ≤ number then
    higherLoop number maxprime divs fuel number
  else none

/-! ### Soundness of the search loops -/

/-- Whatever `smallerLoop` returns is either 0 or a value ≤ the start
satisfying the constraint. -/
theorem smallerLoop_sound (mp : Nat) (divs : List Nat) :
    ∀ fuel (n r : Int), smallerLoop mp divs fuel n = some r →
      r = 0 ∨ (r ≤ n ∧ try_smaller_primes r mp divs = some true) := by
  intro fuel
  induction fuel with
  | zero => intro n r h; simp [smallerLoop] at h
  | succ k ih =>
    intro n r h
    unfold smallerLoop at h
    cases htry : try_smaller_primes n mp divs with
    | none => rw [htry] at h; exact absurd h (by simp)
    | some b =>
      rw [htry] at h
      cases b with
      | true =>
        right
        simp only [Option.some.injEq] at h
        exact ⟨le_of_eq h.symm, h ▸ htry⟩
      | false =>
        simp only [] at h
        by_cases hz : n - 1 = 0
        · rw [if_pos hz] at h
          simp only [Option.some.injEq] at h
          exact Or.inl h.symm
        · rw [if_neg hz] at h
          rcases ih (n - 1) r h with h0 | ⟨hle, ht⟩
          · exact Or.inl h0
          · exact Or.inr ⟨by omega, ht⟩

/-- Whatever `higherLoop` returns (starting at or above the original
`limit`) is ≥ the start and satisfies the constraint; the wrap-around
early return of the source is dead code in this regime. -/
theorem higherLoop_sound (limit : Int) (mp : Nat) (divs : List Nat) :
    ∀ fuel (n r : Int), limit ≤ n → higherLoop limit mp divs fuel n = some r →
      n ≤ r ∧ try_smaller_primes r mp divs = some true := by
  intro fuel
  induction fuel with
  | zero => intro n r _ h; simp [higherLoop] at h
  | succ k ih =>
    intro n r hlim h
    unfold higherLoop at h
    cases htry : try_smaller_primes n mp divs with
    | none => rw [htry] at h; exact absurd h (by simp)
    | some b =>
      rw [htry] at h
      cases b with
      | true =>
        simp only [Option.some.injEq] at h
        exact ⟨le_of_eq h, h ▸ htry⟩
      | false =>
        rw [if_neg (by omega)] at h
        rcases ih (n + 1) r (by omega) h with ⟨hle, ht⟩
        exact ⟨by omega, ht⟩

/-- Element-wise soundness of the sequence branch of `smaller_primes`. -/
theorem smallerSeq_sound (mp : Nat) (divs : List Nat) :
    ∀ (xs vn : List Int), smallerSeq mp divs xs = some (some vn) →
      vn.length = xs.length ∧
        ∀ i, i < vn.length →
          vn.getD i 0 ≤ xs.getD i 0 ∧
            try_smaller_primes (vn.getD i 0) mp divs = some true := by
  intro xs
  induction xs with
  | nil =>
    intro vn h
    simp [smallerSeq] at h
    subst h
    exact ⟨rfl, by intro i hi; simp at hi⟩
  | cons a rest ih =>
    intro vn h
    unfold smallerSeq at h
    split at h
    · cases hloop : smallerLoop mp divs (a.toNat + 1) a with
      | none => rw [hloop] at h; simp at h
      | some r =>
        rw [hloop] at h
        simp only [] at h
        by_cases hr : r = 0
        · rw [if_pos hr] at h; simp at h
        · rw [if_neg hr] at h
          cases hrest : smallerSeq mp divs rest with
          | none => rw [hrest] at h; simp at h
          | some res =>
            rw [hrest] at h
            cases res with
            | none => simp at h
            | some vn' =>
              simp only [Option.map_some', Option.map, Option.some.injEq] at h
              have hvn : vn = r :: vn' := h.symm
              subst hvn
              rcases ih vn' hrest with ⟨hlen, helt⟩
              refine ⟨by simp [hlen], ?_⟩
              intro i hi
              cases i with
              | zero =>
                rcases smallerLoop_sound mp divs _ _ _ hloop with h0 | ⟨hle, ht⟩
                · exact absurd h0 hr
                · exact ⟨hle, ht⟩
              | succ j =>
                simp only [List.getD_cons_succ]
                exact helt j (by simpa using hi)
    · simp at h

/-! ### Claim C5: `higher_primes` returns a constraint-satisfying value ≥ n -/

/-- C5.  For every integer n > 1 with maxPrime ≤ n, whenever the
incrementing search of `higher_primes` returns a value m, then m ≥ n
and `try_smaller_primes m maxPrime requiredDividers` holds (largest
prime factor ≤ maxPrime and m divisible by every required divider).
The search loop is embedded with explicit fuel; a call that does not
terminate within its fuel returns `none` and is covered vacuously. -/
theorem higher_primes_sound (n m : Int) (mp : Nat) (divs : List Nat) (fuel : Nat)
    (h1 : 1 < n) (h2 : (mp : Int) ≤ n)
    (h3 : higher_primes n mp divs fuel = some m) :
    n ≤ m ∧ try_smaller_primes m mp divs = some true := by
  unfold higher_primes at h3
  rw [if_pos ⟨h1, h2⟩] at h3
  exact higherLoop_sound n mp divs fuel n m le_rfl h3

/-- Witness for C5 at n = 11, maxPrime = 7, dividers = {2}: the search
returns 12. -/
theorem higher_primes_sound_witness :
    (11 : Int) ≤ 12 ∧ try_smaller_primes 12 7 [2] = some true :=
  higher_primes_sound 11 12 7 [2] 20 (by decide) (by decide) (by decide)

/-! ### Claim C6: `smaller_primes` -/

/-- C6 counterexample: a tuple input does **not** preserve the
container kind — `smaller_primes((8,), 7, (2,))` returns the Python
list `[8]`, not a tuple. -/
theorem smaller_primes_tuple_counterexample :
    smaller_primes (PyVal.tuple [8]) 7 [2] = some (PyVal.list [8]) ∧
      some (PyVal.list [8]) ≠ some (PyVal.tuple [8]) := by
  constructor
  · decide
  · decide

/-- C6 (amended).  The scalar branch of `smaller_primes` returns an
integer ≤ n satisfying the FFT constraint, or 0 if none is found above
0; on sequences it applies element-wise, preserving the list and array
container kinds, while a tuple input yields a *list* (and an exhausted
element makes the whole call return the scalar 0). -/
theorem smaller_primes_sound (n r : Int) (mp : Nat) (divs : List Nat) (xs : List Int) :
    (smaller_primes (.int n) mp divs = some (.int r) →
      r = 0 ∨ (r ≤ n ∧ try_smaller_primes r mp divs = some true)) ∧
    (∀ v, smaller_primes (.list xs) mp divs = some v →
      (∃ vn, v = .list vn) ∨ v = .int 0) ∧
    (∀ v, smaller_primes (.tuple xs) mp divs = some v →
      (∃ vn, v = .list vn) ∨ v = .int 0) ∧
    (∀ v, smaller_primes (.array xs) mp divs = some v →
      (∃ vn, v = .array vn) ∨ v = .int 0) ∧
    (∀ vn, smaller_primes (.list xs) mp divs = some (.list vn) →
      vn.length = xs.length ∧
        ∀ i, i < vn.length →
          vn.getD i 0 ≤ xs.getD i 0 ∧
            try_smaller_primes (vn.getD i 0) mp divs = some true) := by
  refine ⟨?_, ?_, ?_, ?_, ?_⟩
  · intro h
    simp only [smaller_primes] at h
    split at h
    · cases hloop : smallerLoop mp divs (n.toNat + 1) n with
      | none => rw [hloop] at h; simp at h
      | some r' =>
        rw [hloop] at h
        simp only [Option.map_some', Option.some.injEq, PyVal.int.injEq] at h
        subst h
        exact smallerLoop_sound mp divs _ _ _ hloop
    · simp at h
  · intro v h
    simp only [smaller_primes] at h
    cases hseq : smallerSeq mp divs xs with
    | none => rw [hseq] at h; simp at h
    | some res =>
      rw [hseq] at h
      cases res with
      | none => simp at h; exact Or.inr h.symm
      | some vn => simp at h; exact Or.inl ⟨vn, h.symm⟩
  · intro v h
    simp only [smaller_primes] at h
    cases hseq : smallerSeq mp divs xs with
    | none => rw [hseq] at h; simp at h
    | some res =>
      rw [hseq] at h
      cases res with
      | none => simp at h; exact Or.inr h.symm
      | some vn => simp at h; exact Or.inl ⟨vn, h.symm⟩
  · intro v h
    simp only [smaller_primes] at h
    cases hseq : smallerSeq mp divs xs with
    | none => rw [hseq] at h; simp at h
    | some res =>
      rw [hseq] at h
      cases res with
      | none => simp at h; exact Or.inr h.symm
      | some vn => simp at h; exact Or.inl ⟨vn, h.symm⟩
  · intro vn h
    simp only [smaller_primes] at h
    cases hseq : smallerSeq mp divs xs with
    | none => rw [hseq] at h; simp at h
    | some res =>
      rw [hseq] at h
      cases res with
      | none => simp at h
      | some vn' =>
        simp at h
        subst h
        exact smallerSeq_sound mp divs xs vn' hseq

/-- Witness for C6 at n = 13 (result 12) and xs = [10, 8]. -/
theorem smaller_primes_sound_witness :
    ((12 : Int) = 0 ∨ ((12 : Int) ≤ 13 ∧ try_smaller_primes 12 7 [2] = some true)) ∧
      ((∃ vn, PyVal.list [10, 8] = PyVal.list vn) ∨ PyVal.list [10, 8] = PyVal.int 0) :=
  ⟨(smaller_primes_sound 13 12 7 [2] [10, 8]).1 (by decide),
    (smaller_primes_sound 13 12 7 [2] [10, 8]).2.1 _ (by decide)⟩

/-! ### Claim C7: concrete values of `primes` and `try_smaller_primes` -/

/-- C7 counterexample: `primes(28)` is `[1, 2, 2, 7]`, not `[2, 2, 7]`
— the source seeds the result list with `1`. -/
theorem primes_28_counterexample : primes 28 ≠ some [2, 2, 7] := by decide

/-- C7 (amended).  `primes(28) == [1, 2, 2, 7]` (the implementation
prepends 1 to the ordered prime decomposition), and
`try_smaller_primes(28, 7, (2,)) == True`,
`try_smaller_primes(28, 5, (2,)) == False`. -/
theorem primes_28_spec :
    primes 28 = some [1, 2, 2, 7] ∧
      try_smaller_primes 28 7 [2] = some true ∧
      try_smaller_primes 28 5 [2] = some false := by
  refine ⟨by decide, by decide, by decide⟩

/-! ## Array model

A numpy array is modelled by its shape and a total value function on
index vectors; values are `ℚ` (see the header).  Out-of-range values
are irrelevant: every theorem about array contents quantifies only
over in-range indices. -/

structure NArr where
  shape : List Nat
  val : List Nat → ℚ

/-- Python slice-bound normalization for an axis of length `n`:
negative bounds count from the end and are clamped at 0, non-negative
bounds are clamped at `n`. -/
def sliceIdx (n : Nat) (a : Int) : Nat :=
  if a < 0 then ((n : Int) + a).toNat else min a.toNat n

/-- Length of the Python slice `[a:b]` on an axis of length `n`. -/
def sliceLen (n : Nat) (a b : Int) : Nat :=
  sliceIdx n b - sliceIdx n a

/-- `array[z0:z1, y0:y1, x0:x1]` for a 3D array, with Python slice
semantics on every axis.  (Only ever applied to 3D arrays in the
embedding; other shapes are returned unchanged.) -/
def pySlice3 (a : NArr) (z0 z1 y0 y1 x0 x1 : Int) : NArr :=
  match a.shape with
  | [nz, ny, nx] =>
    ⟨[sliceLen nz z0 z1, sliceLen ny y0 y1, sliceLen nx x0 x1],
      fun c =>
        a.val [sliceIdx nz z0 + c.getD 0 0, sliceIdx ny y0 + c.getD 1 0,
          sliceIdx nx x0 + c.getD 2 0]⟩
  | _ => a

/-- `zero_pad(array, padding_width, mask_flag)`
(preprocessing_utils.py:2076-2110): allocate a zeros (ones for a mask)
array of the enlarged shape and copy the original into the offset
region `newobj[p0:p0+nbz, p2:p2+nby, p4:p4+nbx] = array`.  `none`
models the `ValueError` for non-3D input, numpy's rejection of a
negative dimension in `np.zeros`, a missing `padding_width` entry, and
a shape mismatch of the copy (numpy broadcast error — this is how
negative padding entries fail). -/
def zero_pad (a : NArr) (pw : List Int) (mask_flag : Bool) : Option NArr :=
  match a.shape with
  | [nbz, nby, nbx] =>
    match pw.get? 0, pw.get? 1, pw.get? 2, pw.get? 3, pw.get? 4, pw.get? 5 with
    | some p0, some p1, some p2, some p3, some p4, some p5 =>
      if 0 ≤ (nbz : Int) + p0 + p1 ∧ 0 ≤ (nby : Int) + p2 + p3 ∧
          0 ≤ (nbx : Int) + p4 + p5 then
        if sliceLen ((nbz : Int) + p0 + p1).toNat p0 (p0 + nbz) = nbz ∧
            sliceLen ((nby : Int) + p2 + p3).toNat p2 (p2 + nby) = nby ∧
            sliceLen ((nbx : Int) + p4 + p5).toNat p4 (p4 + nbx) = nbx then
          some ⟨[((nbz : Int) + p0 + p1).toNat, ((nby : Int) + p2 + p3).toNat,
              ((nbx : Int) + p4 + p5).toNat],
            fun c =>
              if sliceIdx ((nbz : Int) + p0 + p1).toNat p0 ≤ c.getD 0 0 ∧
                  c.getD 0 0 < sliceIdx ((nbz : Int) + p0 + p1).toNat p0 + nbz ∧
                  sliceIdx ((nby : Int) + p2 + p3).toNat p2 ≤ c.getD 1 0 ∧
                  c.getD 1 0 < sliceIdx ((nby : Int) + p2 + p3).toNat p2 + nby ∧
                  sliceIdx ((nbx : Int) + p4 + p5).toNat p4 ≤ c.getD 2 0 ∧
                  c.getD 2 0 < sliceIdx ((nbx : Int) + p4 + p5).toNat p4 + nbx then
                a.val [c.getD 0 0 - sliceIdx ((nbz : Int) + p0 + p1).toNat p0,
                  c.getD 1 0 - sliceIdx ((nby : Int) + p2 + p3).toNat p2,
                  c.getD 2 0 - sliceIdx ((nbx : Int) + p4 + p5).toNat p4]
              else if mask_flag then 1 else 0⟩
        else none
      else none
    | _, _, _, _, _, _ => none
  | _ => none

/-- Normalized slice bound of a non-negative in-range bound. -/
theorem sliceIdx_nonneg (n : Nat) (a : Int) (h0 : 0 ≤ a) (h1 : a ≤ (n : Int)) :
    sliceIdx n a = a.toNat := by
  unfold sliceIdx
  split <;> omega

/-- Characterization of `zero_pad` on a 3D array with componentwise
non-negative padding widths: it succeeds, with the enlarged shape and
the original embedded at the offsets. -/
theorem zero_pad_char (v : List Nat → ℚ) (nbz nby nbx : Nat) (p0 p1 p2 p3 p4 p5 : Int)
    (flag : Bool) (h0 : 0 ≤ p0) (h1 : 0 ≤ p1) (h2 : 0 ≤ p2) (h3 : 0 ≤ p3)
    (h4 : 0 ≤ p4) (h5 : 0 ≤ p5) :
    zero_pad ⟨[nbz, nby, nbx], v⟩ [p0, p1, p2, p3, p4, p5] flag =
      some ⟨[nbz + p0.toNat + p1.toNat, nby + p2.toNat + p3.toNat,
          nbx + p4.toNat + p5.toNat],
        fun c =>
          if p0.toNat ≤ c.getD 0 0 ∧ c.getD 0 0 < p0.toNat + nbz ∧
              p2.toNat ≤ c.getD 1 0 ∧ c.getD 1 0 < p2.toNat + nby ∧
              p4.toNat ≤ c.getD 2 0 ∧ c.getD 2 0 < p4.toNat + nbx then
            v [c.getD 0 0 - p0.toNat, c.getD 1 0 - p2.toNat, c.getD 2 0 - p4.toNat]
          else if flag then 1 else 0⟩ := by
  have hz : ((nbz : Int) + p0 + p1).toNat = nbz + p0.toNat + p1.toNat := by omega
  have hy : ((nby : Int) + p2 + p3).toNat = nby + p2.toNat + p3.toNat := by omega
  have hx : ((nbx : Int) + p4 + p5).toNat = nbx + p4.toNat + p5.toNat := by omega
  have sz : sliceIdx ((nbz : Int) + p0 + p1).toNat p0 = p0.toNat :=
    sliceIdx_nonneg _ _ h0 (by omega)
  have sy : sliceIdx ((nby : Int) + p2 + p3).toNat p2 = p2.toNat :=
    sliceIdx_nonneg _ _ h2 (by omega)
  have sx : sliceIdx ((nbx : Int) + p4 + p5).toNat p4 = p4.toNat :=
    sliceIdx_nonneg _ _ h4 (by omega)
  have ez : sliceIdx ((nbz : Int) + p0 + p1).toNat (p0 + nbz) = (p0 + nbz).toNat :=
    sliceIdx_nonneg _ _ (by omega) (by omega)
  have ey : sliceIdx ((nby : Int) + p2 + p3).toNat (p2 + nby) = (p2 + nby).toNat :=
    sliceIdx_nonneg _ _ (by omega) (by omega)
  have ex : sliceIdx ((nbx : Int) + p4 + p5).toNat (p4 + nbx) = (p4 + nbx).toNat :=
    sliceIdx_nonneg _ _ (by omega) (by omega)
  simp only [zero_pad, List.get?]
  rw [if_pos (by omega)]
  rw [if_pos (by unfold sliceLen; rw [sz, sy, sx, ez, ey, ex]; omega)]
  rw [sz, sy, sx, hz, hy, hx]

/-! ### Claim C8: `zero_pad` -/

/-- C8.  For every 3D array of shape (nz, ny, nx), every non-negative
6-tuple of pad widths and both fill-value choices, `zero_pad` returns
a new array of shape (nz+z_low+z_high, ny+y_low+y_high, nx+x_low+x_high)
holding the fill value (0 for data, 1 for a mask) outside the embedded
region and the original values inside it; the round trip
`zero_pad(a, [p,p,p,p,p,p])[p:p+nz, p:p+ny, p:p+nx] == a` holds
exactly for every p ≥ 0; and a non-3D input is rejected
(`ValueError`). -/
theorem zero_pad_spec (v : List Nat → ℚ) (nz ny nx : Nat) (p0 p1 p2 p3 p4 p5 p : Int)
    (flag : Bool)
    (hp : 0 ≤ p0 ∧ 0 ≤ p1 ∧ 0 ≤ p2 ∧ 0 ≤ p3 ∧ 0 ≤ p4 ∧ 0 ≤ p5) (hq : 0 ≤ p) :
    (∃ b, zero_pad ⟨[nz, ny, nx], v⟩ [p0, p1, p2, p3, p4, p5] flag = some b ∧
      b.shape = [nz + p0.toNat + p1.toNat, ny + p2.toNat + p3.toNat,
        nx + p4.toNat + p5.toNat] ∧
      ∀ i j k, i < nz + p0.toNat + p1.toNat → j < ny + p2.toNat + p3.toNat →
        k < nx + p4.toNat + p5.toNat →
        b.val [i, j, k] =
          if p0.toNat ≤ i ∧ i < p0.toNat + nz ∧ p2.toNat ≤ j ∧ j < p2.toNat + ny ∧
              p4.toNat ≤ k ∧ k < p4.toNat + nx then
            v [i - p0.toNat, j - p2.toNat, k - p4.toNat]
          else if flag then 1 else 0) ∧
    (∀ b, zero_pad ⟨[nz, ny, nx], v⟩ [p, p, p, p, p, p] flag = some b →
      (pySlice3 b p (p + nz) p (p + ny) p (p + nx)).shape = [nz, ny, nx] ∧
      ∀ i j k, i < nz → j < ny → k < nx →
        (pySlice3 b p (p + nz) p (p + ny) p (p + nx)).val [i, j, k] = v [i, j, k]) ∧
    (∀ (sh : List Nat) (w : List Nat → ℚ), sh.length ≠ 3 →
      zero_pad ⟨sh, w⟩ [p0, p1, p2, p3, p4, p5] flag = none) := by
  obtain ⟨h0, h1, h2, h3, h4, h5⟩ := hp
  refine ⟨?_, ?_, ?_⟩
  · exact ⟨_, zero_pad_char v nz ny nx p0 p1 p2 p3 p4 p5 flag h0 h1 h2 h3 h4 h5,
      rfl, fun i j k _ _ _ => rfl⟩
  · intro b hb
    rw [zero_pad_char v nz ny nx p p p p p p flag hq hq hq hq hq hq] at hb
    cases hb
    have s1 : sliceIdx (nz + p.toNat + p.toNat) p = p.toNat :=
      sliceIdx_nonneg _ _ hq (by omega)
    have s2 : sliceIdx (ny + p.toNat + p.toNat) p = p.toNat :=
      sliceIdx_nonneg _ _ hq (by omega)
    have s3 : sliceIdx (nx + p.toNat + p.toNat) p = p.toNat :=
      sliceIdx_nonneg _ _ hq (by omega)
    have e1 : sliceIdx (nz + p.toNat + p.toNat) (p + nz) = (p + nz).toNat :=
      sliceIdx_nonneg _ _ (by omega) (by omega)
    have e2 : sliceIdx (ny + p.toNat + p.toNat) (p + ny) = (p + ny).toNat :=
      sliceIdx_nonneg _ _ (by omega) (by omega)
    have e3 : sliceIdx (nx + p.toNat + p.toNat) (p + nx) = (p + nx).toNat :=
      sliceIdx_nonneg _ _ (by omega) (by omega)
    constructor
    · simp only [pySlice3, sliceLen, s1, s2, s3, e1, e2, e3, List.cons.injEq]
      refine ⟨by omega, by omega, by omega, trivial⟩
    · intro i j k hi hj hk
      simp only [pySlice3, sliceLen, s1, s2, s3, List.getD_cons_zero,
        List.getD_cons_succ]
      rw [if_pos (by omega)]
      congr 1
      simp only [Nat.add_sub_cancel_left]
  · intro sh w hlen
    rcases sh with _ | ⟨a, sh⟩
    · rfl
    rcases sh with _ | ⟨b', sh⟩
    · rfl
    rcases sh with _ | ⟨c', sh⟩
    · rfl
    rcases sh with _ | ⟨d', sh⟩
    · exact absurd rfl hlen
    · rfl

/-- Witness for C8 at a 1×1×1 array, all pad widths 1. -/
theorem zero_pad_spec_witness :
    ∃ b, zero_pad ⟨[1, 1, 1], fun _ => (5 : ℚ)⟩ [1, 1, 1, 1, 1, 1] false = some b ∧
      b.shape = [3, 3, 3] := by
  obtain ⟨⟨b, hb, hsh, _⟩, _, _⟩ :=
    zero_pad_spec (fun _ => (5 : ℚ)) 1 1 1 1 1 1 1 1 1 1 false
      ⟨by decide, by decide, by decide, by decide, by decide, by decide⟩ (by decide)
  exact ⟨b, hb, by simpa using hsh⟩

/-! ## Monitor normalization (`normalize_dataset`) -/

/-- `np.min` of a float vector; `none` on an empty vector (numpy
raises). -/
def listMin : List ℚ → Option ℚ
  | [] => none
  | x :: xs => some (xs.foldl min x)

/-- `np.max` of a float vector; `none` on an empty vector. -/
def listMax : List ℚ → Option ℚ
  | [] => none
  | x :: xs => some (xs.foldl max x)

/-- The frame loop of `normalize_dataset`
(preprocessing_utils.py:1069-1078): walk the provenance vector with
counters `nb_overlap`/`nb_padded`, writing into the pre-allocated
monitor vector at position `idx - nb_overlap`: a PADDED (−1) frame
gets `raw_monitor.min()` (`.max()` when normalizing to the maximum), a
USED (1) frame gets `raw_monitor[idx - nb_padded]` (`none` models the
IndexError when the raw monitor is too short), any other tag only
advances `nb_overlap`. -/
def monLoop (raw : List ℚ) (ntm : Bool) :
    List Int → Nat → Nat → Nat → List ℚ → Option (List ℚ)
  | [], _, _, _, mon => some mon
  | t :: rest, idx, nover, npad, mon =>
    if t = -1 then
      match (if ntm then listMin raw else listMax raw) with
      | none => none
      | some v => monLoop raw ntm rest (idx + 1) nover (npad + 1) (mon.set (idx - nover) v)
    else if t = 1 then
      match raw.get? (idx - npad) with
      | none => none
      | some v => monLoop raw ntm rest (idx + 1) nover npad (mon.set (idx - nover) v)
    else monLoop raw ntm rest (idx + 1) (nover + 1) npad mon

/-- `normalize_dataset(array, raw_monitor, frames_logical, norm_to_min)`
(preprocessing_utils.py:1041-1099).  Returns the rescaled array, the
normalized monitor and the plot title.  `none` models: non-3D input,
an IndexError in the frame loop, `min`/`max` of an empty vector, and
the final length-mismatch ValueError. -/
def normalize_dataset (array : NArr) (raw : List ℚ) (frames : List Int) (ntm : Bool) :
    Option (NArr × List ℚ × String) :=
  match array.shape with
  | [nbz, _, _] =>
    match monLoop raw ntm frames 0 0 0
        (List.replicate (frames.filter (fun t => t ≠ 0)).length 0) with
    | none => none
    | some monitor =>
      match (if ntm then (listMin monitor).map (fun m => monitor.map (fun x => m / x))
             else (listMax monitor).map (fun m => monitor.map (fun x => x / m))) with
      | none => none
      | some mon =>
        if mon.length = nbz then
          some (⟨array.shape, fun c => array.val c * mon.getD (c.getD 0 0) 0⟩, mon,
            if ntm then "monitor.min() / monitor" else "monitor / monitor.max()")
        else none
  | _ => none

/-- Append-style reformulation of the frame loop: the sequence of
monitor values written, in order. -/
def alignedF (raw : List ℚ) (ntm : Bool) : List Int → Nat → Nat → Option (List ℚ)
  | [], _, _ => some []
  | t :: rest, idx, npad =>
    if t = -1 then
      match (if ntm then listMin raw else listMax raw) with
      | none => none
      | some v => (alignedF raw ntm rest (idx + 1) (npad + 1)).map (fun l => v :: l)
    else if t = 1 then
      match raw.get? (idx - npad) with
      | none => none
      | some v => (alignedF raw ntm rest (idx + 1) npad).map (fun l => v :: l)
    else alignedF raw ntm rest (idx + 1) npad

/-- Sequential overwrite of a list starting at position `w`. -/
def writeFrom (mon : List ℚ) (w : Nat) : List ℚ → List ℚ
  | [] => mon
  | v :: rest => writeFrom (mon.set w v) (w + 1) rest

theorem writeFrom_cons (m0 : ℚ) (mon : List ℚ) (w : Nat) :
    ∀ app, writeFrom (m0 :: mon) (w + 1) app = m0 :: writeFrom mon w app := by
  intro app
  induction app generalizing mon w m0 with
  | nil => rfl
  | cons v rest ih =>
    show writeFrom ((m0 :: mon).set (w + 1) v) (w + 1 + 1) rest =
      m0 :: writeFrom (mon.set w v) (w + 1) rest
    rw [List.set_cons_succ]
    apply ih

theorem writeFrom_zero : ∀ (app mon : List ℚ), app.length ≤ mon.length →
    writeFrom mon 0 app = app ++ mon.drop app.length := by
  intro app
  induction app with
  | nil => intro mon _; simp [writeFrom]
  | cons v rest ih =>
    intro mon hlen
    cases mon with
    | nil => simp at hlen
    | cons m0 mon' =>
      show writeFrom ((m0 :: mon').set 0 v) 1 rest = _
      rw [List.set_cons_zero]
      rw [show (1 : Nat) = 0 + 1 from rfl, writeFrom_cons]
      rw [ih mon' (by simpa using hlen)]
      rfl

theorem writeFrom_length : ∀ (app mon : List ℚ) (w : Nat),
    (writeFrom mon w app).length = mon.length := by
  intro app
  induction app with
  | nil => intro mon w; rfl
  | cons v rest ih =>
    intro mon w
    show (writeFrom (mon.set w v) (w + 1) rest).length = _
    rw [ih, List.length_set]

/-- The frame loop equals the append-style reformulation composed with
a sequential overwrite at the current fill position `idx - nb_overlap`. -/
theorem monLoop_eq_alignedF (raw : List ℚ) (ntm : Bool) :
    ∀ (rest : List Int) (idx nover npad : Nat) (mon : List ℚ), nover ≤ idx →
      monLoop raw ntm rest idx nover npad mon =
        (alignedF raw ntm rest idx npad).map
          (fun app => writeFrom mon (idx - nover) app) := by
  intro rest
  induction rest with
  | nil => intro idx nover npad mon _; rfl
  | cons t rest ih =>
    intro idx nover npad mon hno
    by_cases ht : t = -1
    · simp only [monLoop, alignedF, if_pos ht]
      cases hmv : (if ntm then listMin raw else listMax raw) with
      | none => rfl
      | some v =>
        dsimp only
        rw [ih (idx + 1) nover (npad + 1) (mon.set (idx - nover) v) (by omega)]
        have hw : idx + 1 - nover = (idx - nover) + 1 := by omega
        rw [hw]
        cases alignedF raw ntm rest (idx + 1) (npad + 1) with
        | none => rfl
        | some l => rfl
    · by_cases ht1 : t = 1
      · simp only [monLoop, alignedF, if_neg ht, if_pos ht1]
        cases hg : raw.get? (idx - npad) with
        | none => rfl
        | some v =>
          dsimp only
          rw [ih (idx + 1) nover npad (mon.set (idx - nover) v) (by omega)]
          have hw : idx + 1 - nover = (idx - nover) + 1 := by omega
          rw [hw]
          cases alignedF raw ntm rest (idx + 1) npad with
          | none => rfl
          | some l => rfl
      · simp only [monLoop, alignedF, if_neg ht, if_neg ht1]
        rw [ih (idx + 1) (nover + 1) npad mon (by omega)]
        have hw : idx + 1 - (nover + 1) = idx - nover := by omega
        rw [hw]

/-- When all provenance tags are in {−1, 0, 1}, the written monitor
sequence has one entry per nonzero tag. -/
theorem alignedF_length (raw : List ℚ) (ntm : Bool) :
    ∀ (rest : List Int) (idx npad : Nat) (l : List ℚ),
      (∀ t ∈ rest, t = -1 ∨ t = 0 ∨ t = 1) →
      alignedF raw ntm rest idx npad = some l →
      l.length = (rest.filter (fun t => t ≠ 0)).length := by
  intro rest
  induction rest with
  | nil =>
    intro idx npad l _ h
    simp [alignedF] at h
    subst h
    rfl
  | cons t rest ih =>
    intro idx npad l htags h
    have htt : t = -1 ∨ t = 0 ∨ t = 1 := htags t (by simp)
    have htrest : ∀ t ∈ rest, t = -1 ∨ t = 0 ∨ t = 1 :=
      fun t' ht' => htags t' (by simp [ht'])
    rcases htt with ht | ht | ht
    · rw [ht] at h ⊢
      simp only [alignedF, if_pos rfl] at h
      cases hmv : (if ntm then listMin raw else listMax raw) with
      | none => rw [hmv] at h; simp at h
      | some v =>
        rw [hmv] at h
        cases hal : alignedF raw ntm rest (idx + 1) (npad + 1) with
        | none => rw [hal] at h; simp at h
        | some l' =>
          rw [hal] at h
          simp at h
          subst h
          rw [List.filter_cons_of_pos (by decide)]
          simp only [List.length_cons]
          have := ih (idx + 1) (npad + 1) l' htrest hal
          omega
    · rw [ht] at h ⊢
      simp only [alignedF, if_neg (by decide : ¬(0 : Int) = -1),
        if_neg (by decide : ¬(0 : Int) = 1)] at h
      rw [List.filter_cons_of_neg (by decide)]
      exact ih (idx + 1) npad l htrest h
    · rw [ht] at h ⊢
      simp only [alignedF, if_neg (by decide : ¬(1 : Int) = -1), if_pos rfl] at h
      cases hg : raw.get? (idx - npad) with
      | none => rw [hg] at h; simp at h
      | some v =>
        rw [hg] at h
        cases hal : alignedF raw ntm rest (idx + 1) npad with
        | none => rw [hal] at h; simp at h
        | some l' =>
          rw [hal] at h
          simp at h
          subst h
          rw [List.filter_cons_of_pos (by decide)]
          simp only [List.length_cons]
          have := ih (idx + 1) npad l' htrest hal
          omega

/-- Every slot of the written monitor sequence whose tag is PADDED
(−1) holds `raw.min()` (`raw.max()` when normalizing to the max). -/
theorem alignedF_padded (raw : List ℚ) (ntm : Bool) :
    ∀ (rest : List Int) (idx npad : Nat) (l : List ℚ),
      (∀ t ∈ rest, t = -1 ∨ t = 0 ∨ t = 1) →
      alignedF raw ntm rest idx npad = some l →
      ∀ k, (rest.filter (fun t => t ≠ 0)).getD k 0 = -1 →
        ∃ m, (if ntm then listMin raw else listMax raw) = some m ∧ l.getD k 0 = m := by
  intro rest
  induction rest with
  | nil =>
    intro idx npad l _ h k hk
    simp [List.getD] at hk
  | cons t rest ih =>
    intro idx npad l htags h k hk
    have htt : t = -1 ∨ t = 0 ∨ t = 1 := htags t (by simp)
    have htrest : ∀ t ∈ rest, t = -1 ∨ t = 0 ∨ t = 1 :=
      fun t' ht' => htags t' (by simp [ht'])
    rcases htt with ht | ht | ht
    · rw [ht] at h hk
      simp only [alignedF, if_pos rfl] at h
      cases hmv : (if ntm then listMin raw else listMax raw) with
      | none => rw [hmv] at h; simp at h
      | some v =>
        rw [hmv] at h
        cases hal : alignedF raw ntm rest (idx + 1) (npad + 1) with
        | none => rw [hal] at h; simp at h
        | some l' =>
          rw [hal] at h
          simp at h
          subst h
          rw [List.filter_cons_of_pos (by decide)] at hk
          cases k with
          | zero => exact ⟨v, rfl, rfl⟩
          | succ j =>
            obtain ⟨m, hm, hl⟩ :=
              ih (idx + 1) (npad + 1) l' htrest hal j (by simpa using hk)
            exact ⟨m, hmv.symm.trans hm, by simpa using hl⟩
    · rw [ht] at h hk
      simp only [alignedF, if_neg (by decide : ¬(0 : Int) = -1),
        if_neg (by decide : ¬(0 : Int) = 1)] at h
      rw [List.filter_cons_of_neg (by decide)] at hk
      exact ih (idx + 1) npad l htrest h k hk
    · rw [ht] at h hk
      simp only [alignedF, if_neg (by decide : ¬(1 : Int) = -1), if_pos rfl] at h
      cases hg : raw.get? (idx - npad) with
      | none => rw [hg] at h; simp at h
      | some v =>
        rw [hg] at h
        cases hal : alignedF raw ntm rest (idx + 1) npad with
        | none => rw [hal] at h; simp at h
        | some l' =>
          rw [hal] at h
          simp at h
          subst h
          rw [List.filter_cons_of_pos (by decide)] at hk
          cases k with
          | zero => simp at hk
          | succ j =>
            obtain ⟨m, hm, hl⟩ := ih (idx + 1) npad l' htrest hal j (by simpa using hk)
            exact ⟨m, hm, by simpa using hl⟩

/-- If the frame loop completes, the raw monitor was long enough for
every USED frame it consumed. -/
theorem monLoop_raw_long_enough (raw : List ℚ) (ntm : Bool) :
    ∀ (rest : List Int) (idx nover npad : Nat) (mon mon' : List ℚ),
      monLoop raw ntm rest idx nover npad mon = some mon' →
      ((rest.filter (fun t => t = 1)).length : Int) ≤
        max 0 ((raw.length : Int) + npad - idx) := by
  intro rest
  induction rest with
  | nil => intro idx nover npad mon mon' _; simp
  | cons t rest ih =>
    intro idx nover npad mon mon' h
    by_cases ht : t = -1
    · rw [ht] at h ⊢
      simp only [monLoop, if_pos rfl] at h
      cases hmv : (if ntm then listMin raw else listMax raw) with
      | none => rw [hmv] at h; simp at h
      | some v =>
        rw [hmv] at h
        have := ih (idx + 1) nover (npad + 1) _ mon' h
        rw [List.filter_cons_of_neg (by decide)]
        omega
    · by_cases ht1 : t = 1
      · rw [ht1] at h ⊢
        simp only [monLoop, if_neg (by decide : ¬(1 : Int) = -1), if_pos rfl] at h
        cases hg : raw.get? (idx - npad) with
        | none => rw [hg] at h; simp at h
        | some v =>
          rw [hg] at h
          have hlt : idx - npad < raw.length := (List.get?_eq_some.mp hg).1
          have := ih (idx + 1) nover npad _ mon' h
          rw [List.filter_cons_of_pos (by decide)]
          simp only [List.length_cons]
          omega
      · simp only [monLoop, if_neg ht, if_neg ht1] at h
        have := ih (idx + 1) (nover + 1) npad mon mon' h
        rw [List.filter_cons_of_neg (by simpa using ht1)]
        omega

/-! ### Claim C9: `normalize_dataset` -/

/-- C9.  `normalize_dataset` returns a monitor vector whose length
equals the volume's frame count; the vector is built from the kept
(USED) and PADDED frames only (one entry per nonzero provenance tag,
in order), with `raw_monitor.min()` (`.max()` when normalizing to the
maximum) substituted at every PADDED slot; and the call fails when the
raw monitor array is shorter than the number of USED frames. -/
theorem normalize_dataset_spec (v : List Nat → ℚ) (nbz nby nbx : Nat) (raw : List ℚ)
    (frames : List Int) (ntm : Bool)
    (htags : ∀ t ∈ frames, t = -1 ∨ t = 0 ∨ t = 1) :
    (∀ arr mon title,
      normalize_dataset ⟨[nbz, nby, nbx], v⟩ raw frames ntm = some (arr, mon, title) →
      mon.length = nbz ∧
      ∃ aligned, alignedF raw ntm frames 0 0 = some aligned ∧
        aligned.length = (frames.filter (fun t => t ≠ 0)).length ∧
        mon.length = aligned.length ∧
        ∀ k, (frames.filter (fun t => t ≠ 0)).getD k 0 = -1 →
          ∃ m, (if ntm then listMin raw else listMax raw) = some m ∧
            aligned.getD k 0 = m) ∧
    (raw.length < (frames.filter (fun t => t = 1)).length →
      normalize_dataset ⟨[nbz, nby, nbx], v⟩ raw frames ntm = none) := by
  constructor
  · intro arr mon title h
    simp only [normalize_dataset] at h
    cases hml : monLoop raw ntm frames 0 0 0
        (List.replicate (frames.filter (fun t => t ≠ 0)).length 0) with
    | none => rw [hml] at h; simp at h
    | some monitor =>
      rw [hml] at h
      dsimp only at h
      rw [monLoop_eq_alignedF raw ntm frames 0 0 0 _ le_rfl] at hml
      obtain ⟨aligned, hal, hwr⟩ := Option.map_eq_some'.mp hml
      have hlen := alignedF_length raw ntm frames 0 0 aligned htags hal
      have hmon : monitor = aligned := by
        rw [← hwr]
        have h0 : (0 : Nat) - 0 = 0 := rfl
        rw [h0, writeFrom_zero _ _ (by simp [hlen])]
        simp [hlen]
      cases htr : (if ntm then
            (listMin monitor).map (fun m => monitor.map (fun x => m / x))
          else (listMax monitor).map (fun m => monitor.map (fun x => x / m))) with
      | none => rw [htr] at h; simp at h
      | some mon' =>
        rw [htr] at h
        simp only [] at h
        by_cases hleq : mon'.length = nbz
        · rw [if_pos hleq] at h
          simp only [Option.some.injEq, Prod.mk.injEq] at h
          have hmm : mon = mon' := h.2.1.symm
          have hm'len : mon'.length = monitor.length := by
            cases ntm with
            | false =>
              simp only [if_neg (by decide : ¬false = true)] at htr
              obtain ⟨m, _, hmap⟩ := Option.map_eq_some'.mp htr
              rw [← hmap, List.length_map]
            | true =>
              simp only [if_pos rfl] at htr
              obtain ⟨m, _, hmap⟩ := Option.map_eq_some'.mp htr
              rw [← hmap, List.length_map]
          refine ⟨hmm ▸ hleq, aligned, hal, hlen, ?_, ?_⟩
          · rw [hmm, hm'len, hmon]
          · exact alignedF_padded raw ntm frames 0 0 aligned htags hal
        · rw [if_neg hleq] at h; simp at h
  · intro hshort
    simp only [normalize_dataset]
    cases hml : monLoop raw ntm frames 0 0 0
        (List.replicate (frames.filter (fun t => t ≠ 0)).length 0) with
    | none => rfl
    | some monitor =>
      exfalso
      have := monLoop_raw_long_enough raw ntm frames 0 0 0 _ monitor hml
      omega

/-- Witness for C9: frames [1, −1, 0, 1] with raw monitor [2, 3, 5] on
a (3,1,1) volume succeed with a length-3 monitor; raw monitor [2] with
frames [1, 1] (two USED frames) fails. -/
theorem normalize_dataset_spec_witness :
    (∃ arr mon title,
      normalize_dataset ⟨[3, 1, 1], fun _ => (1 : ℚ)⟩ [2, 3, 5] [1, -1, 0, 1] true =
        some (arr, mon, title) ∧ mon.length = 3) ∧
    normalize_dataset ⟨[2, 1, 1], fun _ => (1 : ℚ)⟩ [2] [1, 1] true = none := by
  constructor
  · obtain ⟨arr, mon, title, heq⟩ :
        ∃ a m t, normalize_dataset ⟨[3, 1, 1], fun _ => (1 : ℚ)⟩ [2, 3, 5]
          [1, -1, 0, 1] true = some (a, m, t) := ⟨_, _, _, rfl⟩
    have hfacts :=
      (normalize_dataset_spec (fun _ => (1 : ℚ)) 3 1 1 [2, 3, 5] [1, -1, 0, 1] true
        (by decide)).1 arr mon title heq
    exact ⟨arr, mon, title, heq, hfacts.1⟩
  · exact (normalize_dataset_spec (fun _ => (1 : ℚ)) 2 1 1 [2] [1, 1] true
      (by decide)).2 (by decide)

/-! ## The centering / crop / pad engine (`center_fft`) -/

/-- The shape of a 3D array, `none` for any other dimensionality. -/
def shape3 (a : NArr) : Option (Nat × Nat × Nat) :=
  match a.shape with
  | [nz, ny, nx] => some (nz, ny, nx)
  | _ => none

/-- Python in-bounds test for plain (non-slice) indexing on an axis of
length `n`: indices in `[-n, n)` are legal (negative ones wrap). -/
def pyInB (n : Nat) (i : Int) : Prop := -(n : Int) ≤ i ∧ i < (n : Int)

instance (n : Nat) (i : Int) : Decidable (pyInB n i) := by
  unfold pyInB; infer_instance

/-- Python `int(x/2)` for an integer `x`: truncation toward zero of
the exact half.  (`Int` division `/` is floor division here, so the
negative case is routed through negation.) -/
def halfTrunc (x : Int) : Int := if 0 ≤ x then x / 2 else -((-x) / 2)

/-- Python 3 `round()` to an integer, computed on the reduced fraction
of the exact value: round half to even.  The fractional part of `q` is
`(q.num % q.den) / q.den`, so comparing it with `1/2` is comparing
`2*(q.num % q.den)` with `q.den`; the floor is `q.num / q.den`. -/
def pyRound (q : ℚ) : Int :=
  if 2 * (q.num % (q.den : Int)) < (q.den : Int) then q.num / (q.den : Int)
  else if (q.den : Int) < 2 * (q.num % (q.den : Int)) then q.num / (q.den : Int) + 1
  else if (q.num / (q.den : Int)) % 2 = 0 then q.num / (q.den : Int)
  else q.num / (q.den : Int) + 1

/-- `l[a:b]` on a 1D float array, Python slice semantics. -/
def pySliceL (l : List ℚ) (a b : Int) : List ℚ :=
  (l.take (sliceIdx l.length b)).drop (sliceIdx l.length a)

/-- `l[a:b] = 0`: scalar broadcast assignment into a slice of an
integer vector. -/
def fillRange (l : List Int) (a b : Int) : List Int :=
  l.take (sliceIdx l.length a) ++
    List.replicate (sliceIdx l.length b - sliceIdx l.length a) 0 ++
    l.drop (max (sliceIdx l.length a) (sliceIdx l.length b))

/-- `target[a:b] = src` on integer vectors: numpy requires the slice
length to equal the source length (`none` = broadcast error). -/
def pyAssign (target : List Int) (a b : Int) (src : List Int) : Option (List Int) :=
  if sliceIdx target.length b - sliceIdx target.length a = src.length then
    some (target.take (sliceIdx target.length a) ++ src ++
      target.drop (max (sliceIdx target.length a) (sliceIdx target.length b)))
  else none

/-- All index triples of a (nz, ny, nx) volume in C order. -/
def idxList (nz ny nx : Nat) : List (Nat × Nat × Nat) :=
  (List.range nz).flatMap fun i =>
    (List.range ny).flatMap fun j => (List.range nx).map fun k => (i, j, k)

/-- `np.unravel_index(abs(data).argmax(), data.shape)`: position of the
first maximal absolute value in C order; `none` when the array is
empty (numpy raises).  `|a| < |b|` on exact values is compared by
cross-multiplying the reduced fractions:
`|a.num| * b.den < |b.num| * a.den`. -/
def argmax3 (a : NArr) : Option (Nat × Nat × Nat) :=
  match a.shape with
  | [nz, ny, nx] =>
    match idxList nz ny nx with
    | [] => none
    | c :: cs =>
      some (cs.foldl (fun best c =>
        if (a.val [best.1, best.2.1, best.2.2]).num.natAbs *
              (a.val [c.1, c.2.1, c.2.2]).den <
            (a.val [c.1, c.2.1, c.2.2]).num.natAbs *
              (a.val [best.1, best.2.1, best.2.2]).den then c
        else best) c)
  | _ => none

/-- `scipy.ndimage.measurements.center_of_mass`: intensity-weighted
centroid.  A zero total intensity yields float `nan` coordinates,
which only blow up later at `int(round(...))`; `none` stands for that
`nan` outcome. -/
def com3 (a : NArr) : Option (ℚ × ℚ × ℚ) :=
  match a.shape with
  | [nz, ny, nx] =>
    if (idxList nz ny nx).foldl (fun s c => s + a.val [c.1, c.2.1, c.2.2]) 0 = 0 then
      none
    else
      some
        ((idxList nz ny nx).foldl (fun s c => s + c.1 * a.val [c.1, c.2.1, c.2.2]) 0 /
            (idxList nz ny nx).foldl (fun s c => s + a.val [c.1, c.2.1, c.2.2]) 0,
          (idxList nz ny nx).foldl (fun s c => s + c.2.1 * a.val [c.1, c.2.1, c.2.2]) 0 /
            (idxList nz ny nx).foldl (fun s c => s + a.val [c.1, c.2.1, c.2.2]) 0,
          (idxList nz ny nx).foldl (fun s c => s + c.2.2 * a.val [c.1, c.2.1, c.2.2]) 0 /
            (idxList nz ny nx).foldl (fun s c => s + a.val [c.1, c.2.1, c.2.2]) 0)
  | _ => none

/-- Result record of `center_fft`: updated data, mask, `pad_width`,
`q_values` and `frames_logical`. -/
structure CFFTResult where
  data : NArr
  mask : NArr
  pad_width : List Int
  q_values : List (List ℚ)
  frames : List Int

/-- Rebuild a q array after padding along its axis:
`dq = q[1]-q[0]; q0 = q[0] - pw*dq; q0 + arange(n)*dq`
(preprocessing_utils.py:184-186 and analogues).  `none` is the
IndexError when the q array has fewer than two samples. -/
def rebuildQ (q : List ℚ) (pw : Int) (n : Nat) : Option (List ℚ) :=
  match q with
  | q0 :: q1 :: _ =>
    some ((List.range n).map (fun i : Nat => (q0 - pw * (q1 - q0)) + (i : ℚ) * (q1 - q0)))
  | _ => none

/-- `temp_frames = -1 * np.ones(data.shape[0]);
temp_frames[pad_width[0]:pad_width[0] + nbz] = frames_logical`
(preprocessing_utils.py:179-181 and analogues). -/
def padZFrames (newnz : Nat) (pw0 : Int) (nbz : Nat) (frames : List Int) :
    Option (List Int) :=
  pyAssign (List.replicate newnz (-1)) pw0 (pw0 + nbz) frames

/-- Policy `'crop_symmetric_ZYX'` (preprocessing_utils.py:122-139). -/
def cropSymZYX (data mask : NArr) (frames : List Int) (nbz : Nat)
    (iz0 iy0 ix0 : Int) (qact : Bool) (qx qz qy : List ℚ) (qrest : List (List ℚ))
    (max_nz max_ny max_nx : Int) : Option CFFTResult :=
  match smaller_primes (.tuple [max_nz, max_ny, max_nx]) 7 [2] with
  | some (.list [nz1, ny1, nx1]) =>
    let data' := pySlice3 data (iz0 - nz1 / 2) (iz0 + nz1 / 2) (iy0 - ny1 / 2)
      (iy0 + ny1 / 2) (ix0 - nx1 / 2) (ix0 + nx1 / 2)
    let mask' := pySlice3 mask (iz0 - nz1 / 2) (iz0 + nz1 / 2) (iy0 - ny1 / 2)
      (iy0 + ny1 / 2) (ix0 - nx1 / 2) (ix0 + nx1 / 2)
    let f1 := if 0 < iz0 - nz1 / 2 then fillRange frames 0 (iz0 - nz1 / 2) else frames
    let f2 := if iz0 + nz1 / 2 < (nbz : Int) then
        fillRange f1 (iz0 + nz1 / 2) (f1.length : Int)
      else f1
    some ⟨data', mask', [0, 0, 0, 0, 0, 0],
      if qact then
        [pySliceL qx (iz0 - nz1 / 2) (iz0 + nz1 / 2),
          pySliceL qz (iy0 - ny1 / 2) (iy0 + ny1 / 2),
          pySliceL qy (ix0 - nx1 / 2) (ix0 + nx1 / 2)] ++ qrest
      else [], f2⟩
  | _ => none

/-- Policy `'crop_asymmetric_ZYX'` (preprocessing_utils.py:141-160). -/
def cropAsymZYX (data mask : NArr) (frames : List Int) (nbz nby nbx : Nat)
    (qact : Bool) (qx qz qy : List ℚ) (qrest : List (List ℚ)) : Option CFFTResult :=
  match smaller_primes (.tuple [(nbz : Int), (nby : Int), (nbx : Int)]) 7 [2] with
  | some (.list [nz1, ny1, nx1]) =>
    let data' := pySlice3 data ((nbz : Int) / 2 - nz1 / 2) ((nbz : Int) / 2 + nz1 / 2)
      ((nby : Int) / 2 - ny1 / 2) ((nby : Int) / 2 + ny1 / 2)
      ((nbx : Int) / 2 - nx1 / 2) ((nbx : Int) / 2 + nx1 / 2)
    let mask' := pySlice3 mask ((nbz : Int) / 2 - nz1 / 2) ((nbz : Int) / 2 + nz1 / 2)
      ((nby : Int) / 2 - ny1 / 2) ((nby : Int) / 2 + ny1 / 2)
      ((nbx : Int) / 2 - nx1 / 2) ((nbx : Int) / 2 + nx1 / 2)
    let f1 := if 0 < (nbz : Int) / 2 - nz1 / 2 then
        fillRange frames 0 ((nbz : Int) / 2 - nz1 / 2)
      else frames
    let f2 := if (nbz : Int) / 2 + nz1 / 2 < (nbz : Int) then
        fillRange f1 ((nbz : Int) / 2 + nz1 / 2) (f1.length : Int)
      else f1
    some ⟨data', mask', [0, 0, 0, 0, 0, 0],
      if qact then
        [pySliceL qx ((nbz : Int) / 2 - nz1 / 2) ((nbz : Int) / 2 + nz1 / 2),
          pySliceL qz ((nby : Int) / 2 - ny1 / 2) ((nby : Int) / 2 + ny1 / 2),
          pySliceL qy ((nbx : Int) / 2 - nx1 / 2) ((nbx : Int) / 2 + nx1 / 2)] ++ qrest
      else [], f2⟩
  | _ => none

/-- The `pad_width` z entries of the symmetric pad policies
(preprocessing_utils.py:172-174, 221-223, 267):
`(int(min(pad_size/2 - iz0, pad_size - nbz)),
int(min(pad_size/2 - nbz + iz0, pad_size - nbz)))`.  `pad_size/2` is
Python float division; every quantity is an exact multiple of 1/2, so
the computation is carried out in half-units:
`min(ps/2 - iz0, ps - nbz) = min(ps - 2*iz0, 2*(ps - nbz)) / 2`,
truncated toward zero by `halfTrunc`. -/
def padSymW (ps iz0 : Int) (nbz : Nat) : Int × Int :=
  (halfTrunc (min (ps - 2 * iz0) (2 * (ps - (nbz : Int)))),
    halfTrunc (min (ps - 2 * ((nbz : Int) - iz0)) (2 * (ps - (nbz : Int)))))

/-- The near-even `pad_width` split of the asymmetric pad policies
(preprocessing_utils.py:197, 241, 297-299) for a target/size
difference `d`: `(int((d+d%2)/2), int((d+1)/2-(d%2)))`.  The first
numerator `d + d%2` is even, so floor division is exact; the second
value equals `(d+1-2*(d%2))/2` truncated toward zero. -/
def padAsymW (d : Int) : Int × Int :=
  ((d + d % 2) / 2, halfTrunc (d + 1 - 2 * (d % 2)))

/-- Validation `pad_size[k] != higher_primes(pad_size[k], maxprime=7,
required_dividers=(2,))` used by the symmetric pad policies. -/
def validPadSize (ps : Int) : Option Unit :=
  match higher_primes ps 7 [2] (2 * ps.toNat + 2) with
  | none => none
  | some m => if ps = m then some () else none

/-- Policy `'pad_symmetric_Z_crop_YX'` (preprocessing_utils.py:162-188). -/
def padSymZcropYX (data mask : NArr) (frames : List Int) (nbz : Nat)
    (iz0 iy0 ix0 : Int) (qact : Bool) (qx qz qy : List ℚ) (qrest : List (List ℚ))
    (max_ny max_nx : Int) (pad_size : List Int) : Option CFFTResult :=
  if pad_size.length ≠ 3 then none
  else
    match pad_size.get? 0 with
    | none => none
    | some ps0 =>
      match validPadSize ps0 with
      | none => none
      | some _ =>
        match smaller_primes (.tuple [max_ny, max_nx]) 7 [2] with
        | some (.list [ny1, nx1]) =>
          let data1 := pySlice3 data 0 nbz (iy0 - ny1 / 2) (iy0 + ny1 / 2)
            (ix0 - nx1 / 2) (ix0 + nx1 / 2)
          let mask1 := pySlice3 mask 0 nbz (iy0 - ny1 / 2) (iy0 + ny1 / 2)
            (ix0 - nx1 / 2) (ix0 + nx1 / 2)
          let pw : List Int := [(padSymW ps0 iz0 nbz).1, (padSymW ps0 iz0 nbz).2,
            0, 0, 0, 0]
          match zero_pad data1 pw false, zero_pad mask1 pw true with
          | some data', some mask' =>
            match padZFrames (data'.shape.getD 0 0) (pw.getD 0 0) nbz frames with
            | none => none
            | some frames' =>
              if qact then
                match rebuildQ qx (pw.getD 0 0) ps0.toNat with
                | none => none
                | some qx' =>
                  some ⟨data', mask', pw,
                    [qx', pySliceL qz (iy0 - ny1 / 2) (iy0 + ny1 / 2),
                      pySliceL qy (ix0 - nx1 / 2) (ix0 + nx1 / 2)] ++ qrest, frames'⟩
              else some ⟨data', mask', pw, [], frames'⟩
          | _, _ => none
        | _ => none

/-- Policy `'pad_asymmetric_Z_crop_YX'` (preprocessing_utils.py:190-212). -/
def padAsymZcropYX (data mask : NArr) (frames : List Int) (nbz : Nat)
    (iy0 ix0 : Int) (qact : Bool) (qx qz qy : List ℚ) (qrest : List (List ℚ))
    (max_ny max_nx : Int) : Option CFFTResult :=
  match smaller_primes (.tuple [max_ny, max_nx]) 7 [2] with
  | some (.list [ny1, nx1]) =>
    match higher_primes nbz 7 [2] (2 * nbz + 2) with
    | none => none
    | some nz1 =>
      let data1 := pySlice3 data 0 nbz (iy0 - ny1 / 2) (iy0 + ny1 / 2)
        (ix0 - nx1 / 2) (ix0 + nx1 / 2)
      let mask1 := pySlice3 mask 0 nbz (iy0 - ny1 / 2) (iy0 + ny1 / 2)
        (ix0 - nx1 / 2) (ix0 + nx1 / 2)
      let pw : List Int := [(padAsymW (nz1 - nbz)).1, (padAsymW (nz1 - nbz)).2,
        0, 0, 0, 0]
      match zero_pad data1 pw false, zero_pad mask1 pw true with
      | some data', some mask' =>
        match padZFrames (data'.shape.getD 0 0) (pw.getD 0 0) nbz frames with
        | none => none
        | some frames' =>
          if qact then
            match rebuildQ qx (pw.getD 0 0) nz1.toNat with
            | none => none
            | some qx' =>
              some ⟨data', mask', pw,
                [qx', pySliceL qz (iy0 - ny1 / 2) (iy0 + ny1 / 2),
                  pySliceL qy (ix0 - nx1 / 2) (ix0 + nx1 / 2)] ++ qrest, frames'⟩
          else some ⟨data', mask', pw, [], frames'⟩
      | _, _ => none
  | _ => none

/-- Policy `'pad_symmetric_Z'` (preprocessing_utils.py:214-235). -/
def padSymZ (data mask : NArr) (frames : List Int) (nbz : Nat) (iz0 : Int)
    (qact : Bool) (qx qz qy : List ℚ) (qrest : List (List ℚ))
    (pad_size : List Int) : Option CFFTResult :=
  if pad_size.length ≠ 3 then none
  else
    match pad_size.get? 0 with
    | none => none
    | some ps0 =>
      match validPadSize ps0 with
      | none => none
      | some _ =>
        let pw : List Int := [(padSymW ps0 iz0 nbz).1, (padSymW ps0 iz0 nbz).2,
          0, 0, 0, 0]
        match zero_pad data pw false, zero_pad mask pw true with
        | some data', some mask' =>
          match padZFrames (data'.shape.getD 0 0) (pw.getD 0 0) nbz frames with
          | none => none
          | some frames' =>
            if qact then
              match rebuildQ qx (pw.getD 0 0) ps0.toNat with
              | none => none
              | some qx' => some ⟨data', mask', pw, [qx', qz, qy] ++ qrest, frames'⟩
            else some ⟨data', mask', pw, [], frames'⟩
        | _, _ => none

/-- Policy `'pad_asymmetric_Z'` (preprocessing_utils.py:237-254). -/
def padAsymZ (data mask : NArr) (frames : List Int) (nbz : Nat)
    (qact : Bool) (qx qz qy : List ℚ) (qrest : List (List ℚ)) : Option CFFTResult :=
  match higher_primes nbz 7 [2] (2 * nbz + 2) with
  | none => none
  | some nz1 =>
    let pw : List Int := [(padAsymW (nz1 - nbz)).1, (padAsymW (nz1 - nbz)).2,
      0, 0, 0, 0]
    match zero_pad data pw false, zero_pad mask pw true with
    | some data', some mask' =>
      match padZFrames (data'.shape.getD 0 0) (pw.getD 0 0) nbz frames with
      | none => none
      | some frames' =>
        if qact then
          match rebuildQ qx (pw.getD 0 0) nz1.toNat with
          | none => none
          | some qx' => some ⟨data', mask', pw, [qx', qz, qy] ++ qrest, frames'⟩
        else some ⟨data', mask', pw, [], frames'⟩
    | _, _ => none

/-- Policy `'pad_symmetric_ZYX'` (preprocessing_utils.py:256-288).
This is the only pad policy that clamps negative `pad_width` entries
to 0 (line 270).  The q offsets follow the source literally:
`qx0`/`qy0`/`qz0` use `pad_width[0]`/`pad_width[2]`/`pad_width[1]`
(lines 283-285). -/
def padSymZYX (data mask : NArr) (frames : List Int) (nbz nby nbx : Nat)
    (iz0 iy0 ix0 : Int) (qact : Bool) (qx qz qy : List ℚ) (qrest : List (List ℚ))
    (pad_size : List Int) : Option CFFTResult :=
  if pad_size.length ≠ 3 then none
  else
    match pad_size.get? 0, pad_size.get? 1, pad_size.get? 2 with
    | some ps0, some ps1, some ps2 =>
      match validPadSize ps0, validPadSize ps1, validPadSize ps2 with
      | some _, some _, some _ =>
        let pw0 : List Int := [(padSymW ps0 iz0 nbz).1, (padSymW ps0 iz0 nbz).2,
          (padSymW ps1 iy0 nby).1, (padSymW ps1 iy0 nby).2,
          (padSymW ps2 ix0 nbx).1, (padSymW ps2 ix0 nbx).2]
        let pw := pw0.map (fun value => max value 0)
        match zero_pad data pw false, zero_pad mask pw true with
        | some data', some mask' =>
          match padZFrames (data'.shape.getD 0 0) (pw.getD 0 0) nbz frames with
          | none => none
          | some frames' =>
            if qact then
              match rebuildQ qx (pw.getD 0 0) ps0.toNat,
                  rebuildQ qy (pw.getD 2 0) ps2.toNat,
                  rebuildQ qz (pw.getD 1 0) ps1.toNat with
              | some qx', some qy', some qz' =>
                some ⟨data', mask', pw, [qx', qz', qy'] ++ qrest, frames'⟩
              | _, _, _ => none
            else some ⟨data', mask', pw, [], frames'⟩
        | _, _ => none
      | _, _, _ => none
    | _, _, _ => none

/-- Policy `'pad_asymmetric_ZYX'` (preprocessing_utils.py:290-316).
Note the y-axis low entry of `pad_width` (line 298): the parity
correction uses `(pad_size[1]-nby) % 2` — the user `pad_size`, not the
computed target `ny1` — so the function indexes `pad_size` (IndexError
when absent) and the y split depends on `pad_size[1]`. -/
def padAsymZYX (data mask : NArr) (frames : List Int) (nbz nby nbx : Nat)
    (qact : Bool) (qx qz qy : List ℚ) (qrest : List (List ℚ))
    (pad_size : List Int) : Option CFFTResult :=
  match higher_primes nbz 7 [2] (2 * nbz + 2), higher_primes nby 7 [2] (2 * nby + 2),
      higher_primes nbx 7 [2] (2 * nbx + 2) with
  | some nz1, some ny1, some nx1 =>
    match pad_size.get? 1 with
    | none => none
    | some ps1 =>
      let pw : List Int := [(padAsymW (nz1 - nbz)).1, (padAsymW (nz1 - nbz)).2,
        halfTrunc ((ny1 - nby) + (ps1 - nby) % 2),
        (padAsymW (ny1 - nby)).2,
        (padAsymW (nx1 - nbx)).1, (padAsymW (nx1 - nbx)).2]
      match zero_pad data pw false, zero_pad mask pw true with
      | some data', some mask' =>
        match padZFrames (data'.shape.getD 0 0) (pw.getD 0 0) nbz frames with
        | none => none
        | some frames' =>
          if qact then
            match rebuildQ qx (pw.getD 0 0) nz1.toNat,
                rebuildQ qy (pw.getD 2 0) nx1.toNat,
                rebuildQ qz (pw.getD 1 0) ny1.toNat with
            | some qx', some qy', some qz' =>
              some ⟨data', mask', pw, [qx', qz', qy'] ++ qrest, frames'⟩
            | _, _, _ => none
          else some ⟨data', mask', pw, [], frames'⟩
      | _, _ => none
  | _, _, _ => none

/-- Policy `'do_nothing'` (preprocessing_utils.py:318-341).  The crop
sub-branch triggers on `len(fix_size) == 3` and then indexes
`fix_size[3]`..`fix_size[5]`, which necessarily raises IndexError, so
a 3-element `fix_size` always fails and any other `fix_size` passes
the data through untouched. -/
def doNothing (data mask : NArr) (frames : List Int) (nbz nby nbx : Nat)
    (qact : Bool) (qx qz qy : List ℚ) (qrest : List (List ℚ))
    (fix_size : List Int) : Option CFFTResult :=
  if fix_size.length = 3 then
    match fix_size.get? 0, fix_size.get? 1, fix_size.get? 2, fix_size.get? 3,
        fix_size.get? 4, fix_size.get? 5 with
    | some fs0, some fs1, some fs2, some fs3, some fs4, some fs5 =>
      if fs1 - fs0 > (nbz : Int) ∨ fs3 - fs2 > (nby : Int) ∨ fs5 - fs4 > (nbx : Int) ∨
          fs1 > (nbz : Int) ∨ fs3 > (nby : Int) ∨ fs5 > (nbx : Int) then none
      else
        let data' := pySlice3 data fs0 fs1 fs2 fs3 fs4 fs5
        let mask' := pySlice3 mask fs0 fs1 fs2 fs3 fs4 fs5
        let f1 := if fs0 > 0 then fillRange frames 0 fs0 else frames
        let f2 := if fs1 < (nbz : Int) then fillRange f1 fs1 (f1.length : Int) else f1
        some ⟨data', mask', [0, 0, 0, 0, 0, 0],
          if qact then
            [pySliceL qx fs0 fs1, pySliceL qz fs2 fs3, pySliceL qy fs4 fs5] ++ qrest
          else [], f2⟩
    | _, _, _, _, _, _ => none
  else
    some ⟨data, mask, [0, 0, 0, 0, 0, 0],
      if qact then [qx, qz, qy] ++ qrest else [], frames⟩

/-- Maximal symmetric extent around the peak on the rocking and
horizontal axes (preprocessing_utils.py:113, 115): `abs(2*min(i, n-i))`. -/
def maxSymA (n : Nat) (i : Int) : Int := |2 * min i ((n : Int) - i)|

/-- Maximal symmetric extent on the vertical axis
(preprocessing_utils.py:114): `2*min(i, n-i)` — the source has no
`abs` here. -/
def maxSymY (n : Nat) (i : Int) : Int := 2 * min i ((n : Int) - i)

/-- The effective policy: downgraded to `'do_nothing'` when the
symmetric box collapses on some axis (preprocessing_utils.py:117-119). -/
def effOpt (fft_option : String) (mz my mx : Int) : String :=
  if mz = 0 ∨ my = 0 ∨ mx = 0 then "do_nothing" else fft_option

/-- The policy dispatch of `center_fft` (preprocessing_utils.py:122-343);
the final `else` is the ValueError for an unknown policy name. -/
def center_fft_dispatch (data mask : NArr) (frames : List Int) (opt : String)
    (fix_size pad_size : List Int) (qact : Bool) (qx qz qy : List ℚ)
    (qrest : List (List ℚ)) (nbz nby nbx : Nat) (iz0 iy0 ix0 : Int)
    (max_nz max_ny max_nx : Int) : Option CFFTResult :=
  if opt = "crop_symmetric_ZYX" then
    cropSymZYX data mask frames nbz iz0 iy0 ix0 qact qx qz qy qrest max_nz max_ny max_nx
  else if opt = "crop_asymmetric_ZYX" then
    cropAsymZYX data mask frames nbz nby nbx qact qx qz qy qrest
  else if opt = "pad_symmetric_Z_crop_YX" then
    padSymZcropYX data mask frames nbz iz0 iy0 ix0 qact qx qz qy qrest max_ny max_nx
      pad_size
  else if opt = "pad_asymmetric_Z_crop_YX" then
    padAsymZcropYX data mask frames nbz iy0 ix0 qact qx qz qy qrest max_ny max_nx
  else if opt = "pad_symmetric_Z" then
    padSymZ data mask frames nbz iz0 qact qx qz qy qrest pad_size
  else if opt = "pad_asymmetric_Z" then
    padAsymZ data mask frames nbz qact qx qz qy qrest
  else if opt = "pad_symmetric_ZYX" then
    padSymZYX data mask frames nbz nby nbx iz0 iy0 ix0 qact qx qz qy qrest pad_size
  else if opt = "pad_asymmetric_ZYX" then
    padAsymZYX data mask frames nbz nby nbx qact qx qz qy qrest pad_size
  else if opt = "do_nothing" then
    doNothing data mask frames nbz nby nbx qact qx qz qy qrest fix_size
  else none

/-- Steps of `center_fft` from the peak rounding on
(preprocessing_utils.py:108-343): round the peak, index the data at it
(line 109 — IndexError on an out-of-bounds peak), compute the maximal
symmetric box, downgrade to `'do_nothing'` when an axis collapses, and
dispatch on the policy name. -/
def center_fft_core (data mask : NArr) (frames : List Int) (fft_option : String)
    (fix_size pad_size : List Int) (qact : Bool) (qx qz qy : List ℚ)
    (qrest : List (List ℚ)) (nbz nby nbx : Nat) (z0 y0 x0 : ℚ) : Option CFFTResult :=
  if ¬ (pyInB nbz (pyRound z0) ∧ pyInB nby (pyRound y0) ∧ pyInB nbx (pyRound x0)) then
    none
  else
    center_fft_dispatch data mask frames
      (effOpt fft_option (maxSymA nbz (pyRound z0)) (maxSymY nby (pyRound y0))
        (maxSymA nbx (pyRound x0)))
      fix_size pad_size qact qx qz qy qrest nbz nby nbx (pyRound z0) (pyRound y0)
      (pyRound x0) (maxSymA nbz (pyRound z0)) (maxSymY nby (pyRound y0))
      (maxSymA nbx (pyRound x0))

/-- `center_fft(data, mask, frames_logical, centering, fft_option,
fix_bragg=…, fix_size=…, pad_size=…, q_values=…)`
(preprocessing_utils.py:18-349).  The keyword arguments are explicit
parameters, an absent one being the empty list (exactly the source's
defaulting).  A `q_values` with fewer than 3 components behaves as
absent (the source catches the IndexError).  The `centering` value is
validated *before* any `fix_bragg` override; a `'com'` centroid of an
all-zero volume is float nan, which only fails at `int(round(...))`
when no override replaces it. -/
def center_fft (data mask : NArr) (frames : List Int) (centering : String)
    (fft_option : String) (fix_bragg : List Int) (fix_size : List Int)
    (pad_size : List Int) (q_values : List (List ℚ)) : Option CFFTResult :=
  match shape3 data, shape3 mask with
  | some (nbz, nby, nbx), some _ =>
    if data.shape ≠ mask.shape then none
    else
      let qact := decide (3 ≤ q_values.length)
      let qx := q_values.getD 0 []
      let qz := q_values.getD 1 []
      let qy := q_values.getD 2 []
      let qrest := q_values.drop 3
      let peak0 : Option (Option (ℚ × ℚ × ℚ)) :=
        if centering = "max" then
          match argmax3 data with
          | none => none
          | some (i, j, k) => some (some ((i : ℚ), (j : ℚ), (k : ℚ)))
        else if centering = "com" then some (com3 data)
        else none
      match peak0 with
      | none => none
      | some pk =>
        if fix_bragg.length ≠ 0 then
          if fix_bragg.length ≠ 3 then none
          else
            center_fft_core data mask frames fft_option fix_size pad_size qact qx qz qy
              qrest nbz nby nbx ((fix_bragg.getD 0 0 : Int) : ℚ)
              ((fix_bragg.getD 1 0 : Int) : ℚ) ((fix_bragg.getD 2 0 : Int) : ℚ)
        else
          match pk with
          | none => none
          | some (z0, y0, x0) =>
            center_fft_core data mask frames fft_option fix_size pad_size qact qx qz qy
              qrest nbz nby nbx z0 y0 x0
  | _, _ => none

/-! ### Inversion lemmas for the engine -/

/-- Rounding an integer-valued float is the identity. -/
theorem pyRound_intCast (n : Int) : pyRound ((n : Int) : ℚ) = n := by
  unfold pyRound
  rw [Rat.num_intCast, Rat.den_intCast]
  norm_num

/-- A successful `center_fft` call factors through `center_fft_core`
at a 3D shape and some peak value; with a well-formed `fix_bragg` the
peak is exactly the override. -/
theorem center_fft_inv (data mask : NArr) (frames : List Int) (centering : String)
    (fft_option : String) (fix_bragg : List Int) (fix_size : List Int)
    (pad_size : List Int) (q_values : List (List ℚ)) (r : CFFTResult)
    (h : center_fft data mask frames centering fft_option fix_bragg fix_size pad_size
      q_values = some r) :
    ∃ (nbz nby nbx : Nat) (z0 y0 x0 : ℚ),
      data.shape = [nbz, nby, nbx] ∧
      (fix_bragg.length = 3 →
        z0 = ((fix_bragg.getD 0 0 : Int) : ℚ) ∧ y0 = ((fix_bragg.getD 1 0 : Int) : ℚ) ∧
          x0 = ((fix_bragg.getD 2 0 : Int) : ℚ)) ∧
      center_fft_core data mask frames fft_option fix_size pad_size
        (decide (3 ≤ q_values.length)) (q_values.getD 0 []) (q_values.getD 1 [])
        (q_values.getD 2 []) (q_values.drop 3) nbz nby nbx z0 y0 x0 = some r := by
  unfold center_fft at h
  cases hsd : shape3 data with
  | none => rw [hsd] at h; simp at h
  | some sd =>
    cases hsm : shape3 mask with
    | none => rw [hsd, hsm] at h; simp at h
    | some sm =>
      rw [hsd, hsm] at h
      obtain ⟨nbz, nby, nbx⟩ := sd
      dsimp only at h
      have hshape : data.shape = [nbz, nby, nbx] := by
        unfold shape3 at hsd
        rcases hds : data.shape with _ | ⟨a, _ | ⟨b, _ | ⟨c, _ | ⟨d, tl⟩⟩⟩⟩ <;>
          rw [hds] at hsd <;> simp at hsd
        obtain ⟨h1, h2, h3⟩ := hsd
        rw [h1, h2, h3]
      by_cases hms : data.shape ≠ mask.shape
      · rw [if_pos hms] at h; simp at h
      · rw [if_neg hms] at h
        cases hpk : (if centering = "max" then
            match argmax3 data with
            | none => none
            | some (i, j, k) => some (some ((i : ℚ), (j : ℚ), (k : ℚ)))
          else if centering = "com" then some (com3 data)
          else none : Option (Option (ℚ × ℚ × ℚ))) with
        | none => rw [hpk] at h; simp at h
        | some pk =>
          rw [hpk] at h
          dsimp only at h
          by_cases hfb : fix_bragg.length ≠ 0
          · rw [if_pos hfb] at h
            by_cases hfb3 : fix_bragg.length ≠ 3
            · rw [if_pos hfb3] at h; simp at h
            · rw [if_neg hfb3] at h
              exact ⟨nbz, nby, nbx, _, _, _, hshape, fun _ => ⟨rfl, rfl, rfl⟩, h⟩
          · rw [if_neg hfb] at h
            cases pk with
            | none => simp at h
            | some p =>
              obtain ⟨z0, y0, x0⟩ := p
              dsimp only at h
              refine ⟨nbz, nby, nbx, z0, y0, x0, hshape, fun h3 => ?_, h⟩
              · simp at hfb
                rw [hfb] at h3
                simp at h3

/-- A successful `center_fft_core` call has an in-bounds rounded peak
and factors through the policy dispatch. -/
theorem center_fft_core_inv (data mask : NArr) (frames : List Int)
    (fft_option : String) (fix_size pad_size : List Int) (qact : Bool)
    (qx qz qy : List ℚ) (qrest : List (List ℚ)) (nbz nby nbx : Nat) (z0 y0 x0 : ℚ)
    (r : CFFTResult)
    (h : center_fft_core data mask frames fft_option fix_size pad_size qact qx qz qy
      qrest nbz nby nbx z0 y0 x0 = some r) :
    pyInB nbz (pyRound z0) ∧ pyInB nby (pyRound y0) ∧ pyInB nbx (pyRound x0) ∧
    center_fft_dispatch data mask frames
      (effOpt fft_option (maxSymA nbz (pyRound z0)) (maxSymY nby (pyRound y0))
        (maxSymA nbx (pyRound x0)))
      fix_size pad_size qact qx qz qy qrest nbz nby nbx (pyRound z0) (pyRound y0)
      (pyRound x0) (maxSymA nbz (pyRound z0)) (maxSymY nby (pyRound y0))
      (maxSymA nbx (pyRound x0)) = some r := by
  unfold center_fft_core at h
  by_cases hb : ¬ (pyInB nbz (pyRound z0) ∧ pyInB nby (pyRound y0) ∧
      pyInB nbx (pyRound x0))
  · rw [if_pos hb] at h; simp at h
  · rw [if_neg hb] at h
    push_neg at hb
    exact ⟨hb.1, hb.2.1, hb.2.2, h⟩

/-! ### Claim C10: centering validation and `fix_bragg` bounds check -/

/-- C10.  `center_fft` validates and evaluates the `centering`
parameter before applying a `fix_bragg` override: a `centering` other
than `'max'`/`'com'` raises even when a well-formed 3-integer
`fix_bragg` is supplied; and when `fix_bragg` is supplied, the data
array is still indexed at the override position (line 109), so an
out-of-bounds override fails instead of being used. -/
theorem center_fft_centering_validation (dv mv : List Nat → ℚ) (nbz nby nbx : Nat)
    (msh : List Nat) (frames : List Int) (centering fft_option : String)
    (fix_bragg fix_size pad_size : List Int) (q_values : List (List ℚ))
    (h : (centering ≠ "max" ∧ centering ≠ "com") ∨
      (∃ b0 b1 b2 : Int, fix_bragg = [b0, b1, b2] ∧
        ¬ (pyInB nbz b0 ∧ pyInB nby b1 ∧ pyInB nbx b2))) :
    center_fft ⟨[nbz, nby, nbx], dv⟩ ⟨msh, mv⟩ frames centering fft_option fix_bragg
      fix_size pad_size q_values = none := by
  unfold center_fft
  cases hsm : shape3 ⟨msh, mv⟩ with
  | none => rfl
  | some sm =>
    rw [show shape3 ⟨[nbz, nby, nbx], dv⟩ = some (nbz, nby, nbx) from rfl]
    dsimp only
    by_cases hms : [nbz, nby, nbx] ≠ msh
    · rw [if_pos hms]
    · rw [if_neg hms]
      rcases h with ⟨hc1, hc2⟩ | ⟨b0, b1, b2, hfb, hoob⟩
      · rw [if_neg hc1, if_neg hc2]
      · cases hpk : (if centering = "max" then
            match argmax3 ⟨[nbz, nby, nbx], dv⟩ with
            | none => none
            | some (i, j, k) => some (some ((i : ℚ), (j : ℚ), (k : ℚ)))
          else if centering = "com" then some (com3 ⟨[nbz, nby, nbx], dv⟩)
          else none : Option (Option (ℚ × ℚ × ℚ))) with
        | none => rfl
        | some pk =>
          dsimp only
          rw [hfb]
          rw [if_pos (by simp), if_neg (by simp)]
          unfold center_fft_core
          rw [if_pos ?_]
          simp only [List.getD_cons_zero, List.getD_cons_succ, pyRound_intCast]
          exact hoob

/-- Witness for C10: centering `'mean'` is rejected on a 1×1×1 volume
even with `fix_bragg=[0,0,0]`; and `fix_bragg=[5,0,0]` with valid
centering `'max'` fails the bounds check on a 1×1×1 volume. -/
theorem center_fft_centering_validation_witness :
    center_fft ⟨[1, 1, 1], fun _ => (0 : ℚ)⟩ ⟨[1, 1, 1], fun _ => (0 : ℚ)⟩ [1] "mean"
        "crop_symmetric_ZYX" [0, 0, 0] [] [] [] = none ∧
    center_fft ⟨[1, 1, 1], fun _ => (0 : ℚ)⟩ ⟨[1, 1, 1], fun _ => (0 : ℚ)⟩ [1] "max"
        "do_nothing" [5, 0, 0] [] [] [] = none :=
  ⟨center_fft_centering_validation _ _ 1 1 1 _ [1] "mean" "crop_symmetric_ZYX"
      [0, 0, 0] [] [] [] (Or.inl ⟨by decide, by decide⟩),
    center_fft_centering_validation _ _ 1 1 1 _ [1] "max" "do_nothing"
      [5, 0, 0] [] [] [] (Or.inr ⟨5, 0, 0, rfl, by decide⟩)⟩

/-! ### Claim C4: `pad_asymmetric_ZYX` and its `pad_size` dependence -/

/-- C4 (code bug).  Under `'pad_asymmetric_ZYX'` the y-axis pad split
is claimed (and specified) to be `((Δ+Δ%2)/2, (Δ+1)/2 − Δ%2)` with
`Δ = ny1 − nby` computed from the axis's own target alone — for a
(8,9,8) volume the target is `higher_primes(9)=10`, `Δ=1`, and the
split should be `(1, 0)`, giving output y-size 10.  The code instead
computes the parity correction from the user `pad_size`
(`(pad_size[1]-nby) % 2`, line 298): with `pad_size=[8,9,8]` the split
degenerates to `(0, 0)` (output y-size stays 9, not even FFT-valid),
while changing only `pad_size[1]` to 10 restores `(… ,1,0, …)` and
output y-size 10 — the split depends on `pad_size`. -/
theorem pad_asym_zyx_depends_on_pad_size :
    (center_fft ⟨[8, 9, 8], fun _ => (0 : ℚ)⟩ ⟨[8, 9, 8], fun _ => (0 : ℚ)⟩
        (List.replicate 8 1) "max" "pad_asymmetric_ZYX" [4, 4, 4] [] [8, 9, 8] []).map
      (fun r => (r.data.shape, r.pad_width)) = some ([8, 9, 8], [0, 0, 0, 0, 0, 0]) ∧
    (center_fft ⟨[8, 9, 8], fun _ => (0 : ℚ)⟩ ⟨[8, 9, 8], fun _ => (0 : ℚ)⟩
        (List.replicate 8 1) "max" "pad_asymmetric_ZYX" [4, 4, 4] [] [8, 10, 8] []).map
      (fun r => (r.data.shape, r.pad_width)) = some ([8, 10, 8], [0, 0, 1, 0, 0, 0]) ∧
    higher_primes 9 7 [2] 20 = some 10 ∧ padAsymW (10 - 9) = (1, 0) :=
  ⟨rfl, rfl, rfl, rfl⟩

/-! ### Helper lemmas about the slice/assign primitives -/

theorem sliceIdx_le (n : Nat) (a : Int) : sliceIdx n a ≤ n := by
  unfold sliceIdx; split <;> omega

theorem sliceLen_le (n : Nat) (a b : Int) : sliceLen n a b ≤ n := by
  unfold sliceLen
  have := sliceIdx_le n a
  have := sliceIdx_le n b
  omega

theorem fillRange_length (l : List Int) (a b : Int) :
    (fillRange l a b).length = l.length := by
  unfold fillRange
  have ha := sliceIdx_le l.length a
  have hb := sliceIdx_le l.length b
  simp only [List.length_append, List.length_take, List.length_replicate,
    List.length_drop]
  omega

theorem pyAssign_length (t : List Int) (a b : Int) (src out : List Int)
    (h : pyAssign t a b src = some out) : out.length = t.length := by
  unfold pyAssign at h
  split at h
  · simp only [Option.some.injEq] at h
    subst h
    have ha := sliceIdx_le t.length a
    have hb := sliceIdx_le t.length b
    simp only [List.length_append, List.length_take, List.length_drop]
    omega
  · simp at h

theorem padZFrames_length (newnz : Nat) (pw0 : Int) (nbz : Nat)
    (frames out : List Int) (h : padZFrames newnz pw0 nbz frames = some out) :
    out.length = newnz := by
  have := pyAssign_length _ _ _ _ _ h
  simpa using this

theorem pySlice3_shape (a : NArr) (nz ny nx : Nat) (z0 z1 y0 y1 x0 x1 : Int)
    (hsh : a.shape = [nz, ny, nx]) :
    (pySlice3 a z0 z1 y0 y1 x0 x1).shape =
      [sliceLen nz z0 z1, sliceLen ny y0 y1, sliceLen nx x0 x1] := by
  unfold pySlice3
  rw [hsh]

theorem pySliceL_length (l : List ℚ) (a b : Int) :
    (pySliceL l a b).length = sliceLen l.length a b := by
  unfold pySliceL sliceLen
  have := sliceIdx_le l.length b
  simp only [List.length_drop, List.length_take]
  omega

/-! ### Arithmetic of the pad-width formulas -/

/-- Inversion of `higher_primes`: a successful call passed the
`assert` and returns a constraint-satisfying value ≥ n. -/
theorem higher_primes_inv (n m : Int) (mp : Nat) (divs : List Nat) (fuel : Nat)
    (h : higher_primes n mp divs fuel = some m) :
    1 < n ∧ (mp : Int) ≤ n ∧ n ≤ m ∧ try_smaller_primes m mp divs = some true := by
  unfold higher_primes at h
  split at h
  · next hc => exact ⟨hc.1, hc.2, higherLoop_sound n mp divs fuel n m le_rfl h⟩
  · simp at h

/-- A value passing the FFT constraint with required divider 2 is even. -/
theorem try_smaller_two_dvd (m : Int) (mp : Nat)
    (h : try_smaller_primes m mp [2] = some true) : m % 2 = 0 := by
  unfold try_smaller_primes at h
  cases hp : primes m with
  | none => rw [hp] at h; simp at h
  | some p =>
    rw [hp] at h
    simp only [Option.map_some', Option.some.injEq, Bool.and_eq_true,
      List.all_cons, List.all_nil, Bool.and_true, beq_iff_eq] at h
    omega

/-- Inversion of the `pad_size` validation: the validated entry is
> 1, ≥ maxprime = 7 and even. -/
theorem validPadSize_inv (ps : Int) (u : Unit) (h : validPadSize ps = some u) :
    1 < ps ∧ 7 ≤ ps ∧ ps % 2 = 0 := by
  unfold validPadSize at h
  cases hh : higher_primes ps 7 [2] (2 * ps.toNat + 2) with
  | none => rw [hh] at h; simp at h
  | some m =>
    rw [hh] at h
    dsimp only at h
    obtain ⟨h1, h2, _, htry⟩ := higher_primes_inv _ _ _ _ _ hh
    by_cases he : ps = m
    · exact ⟨h1, by exact_mod_cast h2, he ▸ try_smaller_two_dvd m 7 htry⟩
    · rw [if_neg he] at h; simp at h

/-- The near-even split sums to `d` and is componentwise non-negative
for `d ≥ 0`. -/
theorem padAsymW_sum (d : Int) (hd : 0 ≤ d) :
    0 ≤ (padAsymW d).1 ∧ 0 ≤ (padAsymW d).2 ∧ (padAsymW d).1 + (padAsymW d).2 = d := by
  unfold padAsymW halfTrunc
  split_ifs <;> constructor <;> omega

/-- For an even `pad_size`, an in-bounds peak and a successful
broadcast of the original z extent into the padded array, both
symmetric pad entries are non-negative and the padded z size is
exactly `pad_size`. -/
theorem padSymW_success (ps iz0 : Int) (nbz : Nat) (h1 : 1 ≤ nbz)
    (hlo : -(nbz : Int) ≤ iz0) (hhi : iz0 < (nbz : Int)) (heven : ps % 2 = 0)
    (hz : 0 ≤ (nbz : Int) + (padSymW ps iz0 nbz).1 + (padSymW ps iz0 nbz).2)
    (hb : sliceLen ((nbz : Int) + (padSymW ps iz0 nbz).1 + (padSymW ps iz0 nbz).2).toNat
      (padSymW ps iz0 nbz).1 ((padSymW ps iz0 nbz).1 + nbz) = nbz) :
    0 ≤ (padSymW ps iz0 nbz).1 ∧ 0 ≤ (padSymW ps iz0 nbz).2 ∧
      (nbz : Int) + (padSymW ps iz0 nbz).1 + (padSymW ps iz0 nbz).2 = ps := by
  unfold padSymW halfTrunc at *
  unfold sliceLen sliceIdx at hb
  dsimp only at *
  split_ifs at * <;> omega

/-! ### Inversion lemmas for the policy branches -/

/-- Inversion of a successful `zero_pad`: the allocated dimensions are
non-negative, each axis broadcast constraint holds, and the output
shape is the enlarged one. -/
theorem zero_pad_inv (a : NArr) (az ay ax : Nat) (p0 p1 p2 p3 p4 p5 : Int)
    (flag : Bool) (b : NArr) (hsh : a.shape = [az, ay, ax])
    (h : zero_pad a [p0, p1, p2, p3, p4, p5] flag = some b) :
    0 ≤ (az : Int) + p0 + p1 ∧ 0 ≤ (ay : Int) + p2 + p3 ∧ 0 ≤ (ax : Int) + p4 + p5 ∧
    sliceLen ((az : Int) + p0 + p1).toNat p0 (p0 + az) = az ∧
    sliceLen ((ay : Int) + p2 + p3).toNat p2 (p2 + ay) = ay ∧
    sliceLen ((ax : Int) + p4 + p5).toNat p4 (p4 + ax) = ax ∧
    b.shape = [((az : Int) + p0 + p1).toNat, ((ay : Int) + p2 + p3).toNat,
      ((ax : Int) + p4 + p5).toNat] := by
  unfold zero_pad at h
  rw [hsh] at h
  dsimp only [List.get?] at h
  split at h
  · next hc1 =>
    split at h
    · next hc2 =>
      simp only [Option.some.injEq] at h
      subst h
      exact ⟨hc1.1, hc1.2.1, hc1.2.2, hc2.1, hc2.2.1, hc2.2.2, rfl⟩
    · simp at h
  · simp at h

/-- Inversion of the `'crop_symmetric_ZYX'` branch. -/
theorem cropSymZYX_inv (data mask : NArr) (frames : List Int) (nbz nby nbx : Nat)
    (iz0 iy0 ix0 : Int) (qact : Bool) (qx qz qy : List ℚ) (qrest : List (List ℚ))
    (mz my mx : Int) (r : CFFTResult) (hsh : data.shape = [nbz, nby, nbx])
    (h : cropSymZYX data mask frames nbz iz0 iy0 ix0 qact qx qz qy qrest mz my mx =
      some r) :
    ∃ nz1 ny1 nx1 : Int,
      smaller_primes (.tuple [mz, my, mx]) 7 [2] = some (.list [nz1, ny1, nx1]) ∧
      r.data.shape = [sliceLen nbz (iz0 - nz1 / 2) (iz0 + nz1 / 2),
        sliceLen nby (iy0 - ny1 / 2) (iy0 + ny1 / 2),
        sliceLen nbx (ix0 - nx1 / 2) (ix0 + nx1 / 2)] ∧
      r.pad_width = [0, 0, 0, 0, 0, 0] ∧
      r.frames.length = frames.length ∧
      (qact = true →
        r.q_values = [pySliceL qx (iz0 - nz1 / 2) (iz0 + nz1 / 2),
          pySliceL qz (iy0 - ny1 / 2) (iy0 + ny1 / 2),
          pySliceL qy (ix0 - nx1 / 2) (ix0 + nx1 / 2)] ++ qrest) := by
  unfold cropSymZYX at h
  split at h
  · next nz1 ny1 nx1 heq =>
    simp only [Option.some.injEq] at h
    subst h
    refine ⟨nz1, ny1, nx1, heq, pySlice3_shape _ _ _ _ _ _ _ _ _ _ hsh, rfl, ?_, ?_⟩
    · dsimp only
      split
      · rw [fillRange_length]
        split
        · rw [fillRange_length]
        · rfl
      · split
        · rw [fillRange_length]
        · rfl
    · intro hq
      dsimp only
      rw [if_pos hq]
  · simp at h

/-- Inversion of the `'crop_asymmetric_ZYX'` branch. -/
theorem cropAsymZYX_inv (data mask : NArr) (frames : List Int) (nbz nby nbx : Nat)
    (qact : Bool) (qx qz qy : List ℚ) (qrest : List (List ℚ)) (r : CFFTResult)
    (hsh : data.shape = [nbz, nby, nbx])
    (h : cropAsymZYX data mask frames nbz nby nbx qact qx qz qy qrest = some r) :
    ∃ nz1 ny1 nx1 : Int,
      smaller_primes (.tuple [(nbz : Int), (nby : Int), (nbx : Int)]) 7 [2] =
        some (.list [nz1, ny1, nx1]) ∧
      r.data.shape = [sliceLen nbz ((nbz : Int) / 2 - nz1 / 2) ((nbz : Int) / 2 + nz1 / 2),
        sliceLen nby ((nby : Int) / 2 - ny1 / 2) ((nby : Int) / 2 + ny1 / 2),
        sliceLen nbx ((nbx : Int) / 2 - nx1 / 2) ((nbx : Int) / 2 + nx1 / 2)] ∧
      r.pad_width = [0, 0, 0, 0, 0, 0] ∧
      r.frames.length = frames.length ∧
      (qact = true →
        r.q_values = [pySliceL qx ((nbz : Int) / 2 - nz1 / 2) ((nbz : Int) / 2 + nz1 / 2),
          pySliceL qz ((nby : Int) / 2 - ny1 / 2) ((nby : Int) / 2 + ny1 / 2),
          pySliceL qy ((nbx : Int) / 2 - nx1 / 2) ((nbx : Int) / 2 + nx1 / 2)] ++ qrest) := by
  unfold cropAsymZYX at h
  split at h
  · next nz1 ny1 nx1 heq =>
    simp only [Option.some.injEq] at h
    subst h
    refine ⟨nz1, ny1, nx1, heq, pySlice3_shape _ _ _ _ _ _ _ _ _ _ hsh, rfl, ?_, ?_⟩
    · dsimp only
      split
      · rw [fillRange_length]
        split
        · rw [fillRange_length]
        · rfl
      · split
        · rw [fillRange_length]
        · rfl
    · intro hq
      dsimp only
      rw [if_pos hq]
  · simp at h

/-- Inversion of the `'do_nothing'` branch: the crop sub-branch
requires `len(fix_size) == 3` but indexes `fix_size[3..5]`, so it
always raises; a successful call is a pure pass-through. -/
theorem doNothing_inv (data mask : NArr) (frames : List Int) (nbz nby nbx : Nat)
    (qact : Bool) (qx qz qy : List ℚ) (qrest : List (List ℚ)) (fix_size : List Int)
    (r : CFFTResult)
    (h : doNothing data mask frames nbz nby nbx qact qx qz qy qrest fix_size = some r) :
    r.data = data ∧ r.mask = mask ∧ r.pad_width = [0, 0, 0, 0, 0, 0] ∧
      r.frames = frames ∧
      (qact = true → r.q_values = [qx, qz, qy] ++ qrest) := by
  unfold doNothing at h
  split at h
  · next hfs =>
    have hg3 : fix_size.get? 3 = none := by
      rw [List.get?_eq_none]
      omega
    cases hg0 : fix_size.get? 0 with
    | none => rw [hg0] at h; simp at h
    | some fs0 =>
      rw [hg0] at h
      cases hg1 : fix_size.get? 1 with
      | none => rw [hg1] at h; simp at h
      | some fs1 =>
        rw [hg1] at h
        cases hg2 : fix_size.get? 2 with
        | none => rw [hg2] at h; simp at h
        | some fs2 =>
          rw [hg2, hg3] at h
          simp at h
  · simp only [Option.some.injEq] at h
    subst h
    refine ⟨rfl, rfl, rfl, rfl, fun hq => ?_⟩
    dsimp only
    rw [if_pos hq]

/-- Inversion of the `'pad_symmetric_Z'` branch. -/
theorem padSymZ_inv (data mask : NArr) (frames : List Int) (nbz nby nbx : Nat)
    (iz0 : Int) (qact : Bool) (qx qz qy : List ℚ) (qrest : List (List ℚ))
    (pad_size : List Int) (r : CFFTResult) (hsh : data.shape = [nbz, nby, nbx])
    (h : padSymZ data mask frames nbz iz0 qact qx qz qy qrest pad_size = some r) :
    ∃ ps0 : Int,
      pad_size.get? 0 = some ps0 ∧ 1 < ps0 ∧ 7 ≤ ps0 ∧ ps0 % 2 = 0 ∧
      0 ≤ (nbz : Int) + (padSymW ps0 iz0 nbz).1 + (padSymW ps0 iz0 nbz).2 ∧
      sliceLen ((nbz : Int) + (padSymW ps0 iz0 nbz).1 + (padSymW ps0 iz0 nbz).2).toNat
        (padSymW ps0 iz0 nbz).1 ((padSymW ps0 iz0 nbz).1 + nbz) = nbz ∧
      r.pad_width = [(padSymW ps0 iz0 nbz).1, (padSymW ps0 iz0 nbz).2, 0, 0, 0, 0] ∧
      r.data.shape = [((nbz : Int) + (padSymW ps0 iz0 nbz).1 +
        (padSymW ps0 iz0 nbz).2).toNat, nby, nbx] ∧
      r.frames.length = ((nbz : Int) + (padSymW ps0 iz0 nbz).1 +
        (padSymW ps0 iz0 nbz).2).toNat ∧
      (qact = true → ∃ qx', rebuildQ qx (padSymW ps0 iz0 nbz).1 ps0.toNat = some qx' ∧
        r.q_values = [qx', qz, qy] ++ qrest) := by
  unfold padSymZ at h
  split at h
  · simp at h
  · cases hps : pad_size.get? 0 with
    | none => rw [hps] at h; simp at h
    | some ps0 =>
      rw [hps] at h
      dsimp only at h
      cases hv : validPadSize ps0 with
      | none => rw [hv] at h; simp at h
      | some u =>
        rw [hv] at h
        dsimp only at h
        obtain ⟨hv1, hv2, hv3⟩ := validPadSize_inv ps0 u hv
        split at h
        · next data' mask' hzd hzm =>
          obtain ⟨ha1, _, _, hb1, _, _, hshape⟩ :=
            zero_pad_inv data nbz nby nbx _ _ 0 0 0 0 false data' hsh hzd
          cases hpf : padZFrames (data'.shape.getD 0 0)
              ((([(padSymW ps0 iz0 nbz).1, (padSymW ps0 iz0 nbz).2, 0, 0, 0, 0] :
                List Int).getD 0 0)) nbz frames with
          | none => rw [hpf] at h; simp at h
          | some frames' =>
            rw [hpf] at h
            dsimp only at h
            have hflen : frames'.length = ((nbz : Int) + (padSymW ps0 iz0 nbz).1 +
                (padSymW ps0 iz0 nbz).2).toNat := by
              have := padZFrames_length _ _ _ _ _ hpf
              rw [this, hshape]
              rfl
            have hshape' : data'.shape = [((nbz : Int) + (padSymW ps0 iz0 nbz).1 +
                (padSymW ps0 iz0 nbz).2).toNat, nby, nbx] := by
              rw [hshape]
              simp
            cases qact with
            | false =>
              rw [if_neg (by decide : ¬(false = true))] at h
              simp only [Option.some.injEq] at h
              subst h
              exact ⟨ps0, rfl, hv1, hv2, hv3, ha1, by simpa using hb1, rfl, hshape',
                hflen, fun hq => by simp at hq⟩
            | true =>
              rw [if_pos rfl] at h
              simp only [List.getD_cons_zero] at h
              cases hrq : rebuildQ qx (padSymW ps0 iz0 nbz).1 ps0.toNat with
              | none => rw [hrq] at h; simp at h
              | some qx' =>
                rw [hrq] at h
                simp only [Option.some.injEq] at h
                subst h
                exact ⟨ps0, rfl, hv1, hv2, hv3, ha1, by simpa using hb1, rfl, hshape',
                  hflen, fun _ => ⟨qx', hrq, rfl⟩⟩
        · simp at h

/-- Inversion of the `'pad_asymmetric_Z'` branch. -/
theorem padAsymZ_inv (data mask : NArr) (frames : List Int) (nbz nby nbx : Nat)
    (qact : Bool) (qx qz qy : List ℚ) (qrest : List (List ℚ)) (r : CFFTResult)
    (hsh : data.shape = [nbz, nby, nbx])
    (h : padAsymZ data mask frames nbz qact qx qz qy qrest = some r) :
    ∃ nz1 : Int,
      higher_primes nbz 7 [2] (2 * nbz + 2) = some nz1 ∧
      r.pad_width = [(padAsymW (nz1 - nbz)).1, (padAsymW (nz1 - nbz)).2, 0, 0, 0, 0] ∧
      r.data.shape = [((nbz : Int) + (padAsymW (nz1 - nbz)).1 +
        (padAsymW (nz1 - nbz)).2).toNat, nby, nbx] ∧
      r.frames.length = ((nbz : Int) + (padAsymW (nz1 - nbz)).1 +
        (padAsymW (nz1 - nbz)).2).toNat ∧
      (qact = true → ∃ qx', rebuildQ qx (padAsymW (nz1 - nbz)).1 nz1.toNat = some qx' ∧
        r.q_values = [qx', qz, qy] ++ qrest) := by
  unfold padAsymZ at h
  cases hnz : higher_primes nbz 7 [2] (2 * nbz + 2) with
  | none => rw [hnz] at h; simp at h
  | some nz1 =>
    rw [hnz] at h
    dsimp only at h
    split at h
    · next data' mask' hzd hzm =>
      obtain ⟨ha1, _, _, hb1, _, _, hshape⟩ :=
        zero_pad_inv data nbz nby nbx _ _ 0 0 0 0 false data' hsh hzd
      cases hpf : padZFrames (data'.shape.getD 0 0)
          ((([(padAsymW (nz1 - nbz)).1, (padAsymW (nz1 - nbz)).2, 0, 0, 0, 0] :
            List Int).getD 0 0)) nbz frames with
      | none => rw [hpf] at h; simp at h
      | some frames' =>
        rw [hpf] at h
        dsimp only at h
        have hflen : frames'.length = ((nbz : Int) + (padAsymW (nz1 - nbz)).1 +
            (padAsymW (nz1 - nbz)).2).toNat := by
          have := padZFrames_length _ _ _ _ _ hpf
          rw [this, hshape]
          rfl
        have hshape' : data'.shape = [((nbz : Int) + (padAsymW (nz1 - nbz)).1 +
            (padAsymW (nz1 - nbz)).2).toNat, nby, nbx] := by
          rw [hshape]
          simp
        cases qact with
        | false =>
          rw [if_neg (by decide : ¬(false = true))] at h
          simp only [Option.some.injEq] at h
          subst h
          exact ⟨nz1, rfl, rfl, hshape', hflen, fun hq => by simp at hq⟩
        | true =>
          rw [if_pos rfl] at h
          simp only [List.getD_cons_zero] at h
          cases hrq : rebuildQ qx (padAsymW (nz1 - nbz)).1 nz1.toNat with
          | none => rw [hrq] at h; simp at h
          | some qx' =>
            rw [hrq] at h
            simp only [Option.some.injEq] at h
            subst h
            exact ⟨nz1, rfl, rfl, hshape', hflen, fun _ => ⟨qx', hrq, rfl⟩⟩
    · simp at h

theorem sliceLen_full (n : Nat) : sliceLen n 0 (n : Int) = n := by
  unfold sliceLen sliceIdx
  split_ifs <;> omega

/-- Inversion of the `'pad_symmetric_Z_crop_YX'` branch. -/
theorem padSymZcropYX_inv (data mask : NArr) (frames : List Int) (nbz nby nbx : Nat)
    (iz0 iy0 ix0 : Int) (qact : Bool) (qx qz qy : List ℚ) (qrest : List (List ℚ))
    (my mx : Int) (pad_size : List Int) (r : CFFTResult)
    (hsh : data.shape = [nbz, nby, nbx])
    (h : padSymZcropYX data mask frames nbz iz0 iy0 ix0 qact qx qz qy qrest my mx
      pad_size = some r) :
    ∃ ps0 ny1 nx1 : Int,
      pad_size.get? 0 = some ps0 ∧ 1 < ps0 ∧ 7 ≤ ps0 ∧ ps0 % 2 = 0 ∧
      smaller_primes (.tuple [my, mx]) 7 [2] = some (.list [ny1, nx1]) ∧
      0 ≤ (nbz : Int) + (padSymW ps0 iz0 nbz).1 + (padSymW ps0 iz0 nbz).2 ∧
      sliceLen ((nbz : Int) + (padSymW ps0 iz0 nbz).1 + (padSymW ps0 iz0 nbz).2).toNat
        (padSymW ps0 iz0 nbz).1 ((padSymW ps0 iz0 nbz).1 + nbz) = nbz ∧
      r.pad_width = [(padSymW ps0 iz0 nbz).1, (padSymW ps0 iz0 nbz).2, 0, 0, 0, 0] ∧
      r.data.shape = [((nbz : Int) + (padSymW ps0 iz0 nbz).1 +
          (padSymW ps0 iz0 nbz).2).toNat,
        sliceLen nby (iy0 - ny1 / 2) (iy0 + ny1 / 2),
        sliceLen nbx (ix0 - nx1 / 2) (ix0 + nx1 / 2)] ∧
      r.frames.length = ((nbz : Int) + (padSymW ps0 iz0 nbz).1 +
        (padSymW ps0 iz0 nbz).2).toNat ∧
      (qact = true → ∃ qx', rebuildQ qx (padSymW ps0 iz0 nbz).1 ps0.toNat = some qx' ∧
        r.q_values = [qx', pySliceL qz (iy0 - ny1 / 2) (iy0 + ny1 / 2),
          pySliceL qy (ix0 - nx1 / 2) (ix0 + nx1 / 2)] ++ qrest) := by
  unfold padSymZcropYX at h
  split at h
  · simp at h
  · cases hps : pad_size.get? 0 with
    | none => rw [hps] at h; simp at h
    | some ps0 =>
      rw [hps] at h
      dsimp only at h
      cases hv : validPadSize ps0 with
      | none => rw [hv] at h; simp at h
      | some u =>
        rw [hv] at h
        dsimp only at h
        obtain ⟨hv1, hv2, hv3⟩ := validPadSize_inv ps0 u hv
        split at h
        · next ny1 nx1 heq =>
          have hsh1 : (pySlice3 data 0 nbz (iy0 - ny1 / 2) (iy0 + ny1 / 2)
              (ix0 - nx1 / 2) (ix0 + nx1 / 2)).shape =
              [nbz, sliceLen nby (iy0 - ny1 / 2) (iy0 + ny1 / 2),
                sliceLen nbx (ix0 - nx1 / 2) (ix0 + nx1 / 2)] := by
            rw [pySlice3_shape _ nbz nby nbx _ _ _ _ _ _ hsh, sliceLen_full]
          split at h
          · next data' mask' hzd hzm =>
            obtain ⟨ha1, _, _, hb1, _, _, hshape⟩ :=
              zero_pad_inv _ nbz (sliceLen nby (iy0 - ny1 / 2) (iy0 + ny1 / 2))
                (sliceLen nbx (ix0 - nx1 / 2) (ix0 + nx1 / 2)) _ _ 0 0 0 0 false data'
                hsh1 hzd
            cases hpf : padZFrames (data'.shape.getD 0 0)
                ((([(padSymW ps0 iz0 nbz).1, (padSymW ps0 iz0 nbz).2, 0, 0, 0, 0] :
                  List Int).getD 0 0)) nbz frames with
            | none => rw [hpf] at h; simp at h
            | some frames' =>
              rw [hpf] at h
              dsimp only at h
              have hflen : frames'.length = ((nbz : Int) + (padSymW ps0 iz0 nbz).1 +
                  (padSymW ps0 iz0 nbz).2).toNat := by
                have := padZFrames_length _ _ _ _ _ hpf
                rw [this, hshape]
                rfl
              have hshape' : data'.shape = [((nbz : Int) + (padSymW ps0 iz0 nbz).1 +
                  (padSymW ps0 iz0 nbz).2).toNat,
                  sliceLen nby (iy0 - ny1 / 2) (iy0 + ny1 / 2),
                  sliceLen nbx (ix0 - nx1 / 2) (ix0 + nx1 / 2)] := by
                rw [hshape]
                simp
              cases qact with
              | false =>
                rw [if_neg (by decide : ¬(false = true))] at h
                simp only [Option.some.injEq] at h
                subst h
                exact ⟨ps0, ny1, nx1, rfl, hv1, hv2, hv3, heq, ha1, by simpa using hb1,
                  rfl, hshape', hflen, fun hq => by simp at hq⟩
              | true =>
                rw [if_pos rfl] at h
                simp only [List.getD_cons_zero] at h
                cases hrq : rebuildQ qx (padSymW ps0 iz0 nbz).1 ps0.toNat with
                | none => rw [hrq] at h; simp at h
                | some qx' =>
                  rw [hrq] at h
                  simp only [Option.some.injEq] at h
                  subst h
                  exact ⟨ps0, ny1, nx1, rfl, hv1, hv2, hv3, heq, ha1,
                    by simpa using hb1, rfl, hshape', hflen, fun _ => ⟨qx', hrq, rfl⟩⟩
          · simp at h
        · simp at h

/-- Inversion of the `'pad_asymmetric_Z_crop_YX'` branch. -/
theorem padAsymZcropYX_inv (data mask : NArr) (frames : List Int) (nbz nby nbx : Nat)
    (iy0 ix0 : Int) (qact : Bool) (qx qz qy : List ℚ) (qrest : List (List ℚ))
    (my mx : Int) (r : CFFTResult) (hsh : data.shape = [nbz, nby, nbx])
    (h : padAsymZcropYX data mask frames nbz iy0 ix0 qact qx qz qy qrest my mx =
      some r) :
    ∃ nz1 ny1 nx1 : Int,
      smaller_primes (.tuple [my, mx]) 7 [2] = some (.list [ny1, nx1]) ∧
      higher_primes nbz 7 [2] (2 * nbz + 2) = some nz1 ∧
      r.pad_width = [(padAsymW (nz1 - nbz)).1, (padAsymW (nz1 - nbz)).2, 0, 0, 0, 0] ∧
      r.data.shape = [((nbz : Int) + (padAsymW (nz1 - nbz)).1 +
          (padAsymW (nz1 - nbz)).2).toNat,
        sliceLen nby (iy0 - ny1 / 2) (iy0 + ny1 / 2),
        sliceLen nbx (ix0 - nx1 / 2) (ix0 + nx1 / 2)] ∧
      r.frames.length = ((nbz : Int) + (padAsymW (nz1 - nbz)).1 +
        (padAsymW (nz1 - nbz)).2).toNat ∧
      (qact = true → ∃ qx', rebuildQ qx (padAsymW (nz1 - nbz)).1 nz1.toNat = some qx' ∧
        r.q_values = [qx', pySliceL qz (iy0 - ny1 / 2) (iy0 + ny1 / 2),
          pySliceL qy (ix0 - nx1 / 2) (ix0 + nx1 / 2)] ++ qrest) := by
  unfold padAsymZcropYX at h
  split at h
  · next ny1 nx1 heq =>
    cases hnz : higher_primes nbz 7 [2] (2 * nbz + 2) with
    | none => rw [hnz] at h; simp at h
    | some nz1 =>
      rw [hnz] at h
      dsimp only at h
      have hsh1 : (pySlice3 data 0 nbz (iy0 - ny1 / 2) (iy0 + ny1 / 2)
          (ix0 - nx1 / 2) (ix0 + nx1 / 2)).shape =
          [nbz, sliceLen nby (iy0 - ny1 / 2) (iy0 + ny1 / 2),
            sliceLen nbx (ix0 - nx1 / 2) (ix0 + nx1 / 2)] := by
        rw [pySlice3_shape _ nbz nby nbx _ _ _ _ _ _ hsh, sliceLen_full]
      split at h
      · next data' mask' hzd hzm =>
        obtain ⟨ha1, _, _, hb1, _, _, hshape⟩ :=
          zero_pad_inv _ nbz (sliceLen nby (iy0 - ny1 / 2) (iy0 + ny1 / 2))
            (sliceLen nbx (ix0 - nx1 / 2) (ix0 + nx1 / 2)) _ _ 0 0 0 0 false data'
            hsh1 hzd
        cases hpf : padZFrames (data'.shape.getD 0 0)
            ((([(padAsymW (nz1 - nbz)).1, (padAsymW (nz1 - nbz)).2, 0, 0, 0, 0] :
              List Int).getD 0 0)) nbz frames with
        | none => rw [hpf] at h; simp at h
        | some frames' =>
          rw [hpf] at h
          dsimp only at h
          have hflen : frames'.length = ((nbz : Int) + (padAsymW (nz1 - nbz)).1 +
              (padAsymW (nz1 - nbz)).2).toNat := by
            have := padZFrames_length _ _ _ _ _ hpf
            rw [this, hshape]
            rfl
          have hshape' : data'.shape = [((nbz : Int) + (padAsymW (nz1 - nbz)).1 +
              (padAsymW (nz1 - nbz)).2).toNat,
              sliceLen nby (iy0 - ny1 / 2) (iy0 + ny1 / 2),
              sliceLen nbx (ix0 - nx1 / 2) (ix0 + nx1 / 2)] := by
            rw [hshape]
            simp
          cases qact with
          | false =>
            rw [if_neg (by decide : ¬(false = true))] at h
            simp only [Option.some.injEq] at h
            subst h
            exact ⟨nz1, ny1, nx1, heq, rfl, rfl, hshape', hflen,
              fun hq => by simp at hq⟩
          | true =>
            rw [if_pos rfl] at h
            simp only [List.getD_cons_zero] at h
            cases hrq : rebuildQ qx (padAsymW (nz1 - nbz)).1 nz1.toNat with
            | none => rw [hrq] at h; simp at h
            | some qx' =>
              rw [hrq] at h
              simp only [Option.some.injEq] at h
              subst h
              exact ⟨nz1, ny1, nx1, heq, rfl, rfl, hshape', hflen,
                fun _ => ⟨qx', hrq, rfl⟩⟩
      · simp at h
  · simp at h

/-- Inversion of the `'pad_symmetric_ZYX'` branch: all six pad
entries are clamped non-negative. -/
theorem padSymZYX_inv (data mask : NArr) (frames : List Int) (nbz nby nbx : Nat)
    (iz0 iy0 ix0 : Int) (qact : Bool) (qx qz qy : List ℚ) (qrest : List (List ℚ))
    (pad_size : List Int) (r : CFFTResult) (hsh : data.shape = [nbz, nby, nbx])
    (h : padSymZYX data mask frames nbz nby nbx iz0 iy0 ix0 qact qx qz qy qrest
      pad_size = some r) :
    ∃ w0 w1 w2 w3 w4 w5 : Int,
      r.pad_width = [w0, w1, w2, w3, w4, w5] ∧
      0 ≤ w0 ∧ 0 ≤ w1 ∧ 0 ≤ w2 ∧ 0 ≤ w3 ∧ 0 ≤ w4 ∧ 0 ≤ w5 ∧
      r.data.shape.getD 0 0 = ((nbz : Int) + w0 + w1).toNat ∧
      r.frames.length = ((nbz : Int) + w0 + w1).toNat := by
  unfold padSymZYX at h
  split at h
  · simp at h
  · split at h
    · next ps0 ps1 ps2 hg0 hg1 hg2 =>
      split at h
      · next u0 u1 u2 hv0 hv1 hv2 =>
        dsimp only [List.map] at h
        split at h
        · next data' mask' hzd hzm =>
          obtain ⟨ha1, _, _, hb1, _, _, hshape⟩ :=
            zero_pad_inv data nbz nby nbx _ _ _ _ _ _ false data' hsh hzd
          cases hpf : padZFrames (data'.shape.getD 0 0)
              ((([max (padSymW ps0 iz0 nbz).1 0, max (padSymW ps0 iz0 nbz).2 0,
                max (padSymW ps1 iy0 nby).1 0, max (padSymW ps1 iy0 nby).2 0,
                max (padSymW ps2 ix0 nbx).1 0, max (padSymW ps2 ix0 nbx).2 0] :
                List Int).getD 0 0)) nbz frames with
          | none => rw [hpf] at h; simp at h
          | some frames' =>
            rw [hpf] at h
            dsimp only at h
            have hflen : frames'.length = ((nbz : Int) + max (padSymW ps0 iz0 nbz).1 0 +
                max (padSymW ps0 iz0 nbz).2 0).toNat := by
              have := padZFrames_length _ _ _ _ _ hpf
              rw [this, hshape]
              rfl
            have hget : data'.shape.getD 0 0 = ((nbz : Int) +
                max (padSymW ps0 iz0 nbz).1 0 + max (padSymW ps0 iz0 nbz).2 0).toNat := by
              rw [hshape]
              rfl
            cases qact with
            | false =>
              rw [if_neg (by decide : ¬(false = true))] at h
              simp only [Option.some.injEq] at h
              subst h
              exact ⟨_, _, _, _, _, _, rfl, le_max_right _ _, le_max_right _ _,
                le_max_right _ _, le_max_right _ _, le_max_right _ _, le_max_right _ _,
                hget, hflen⟩
            | true =>
              rw [if_pos rfl] at h
              split at h
              · next qx' qy' qz' hrx hry hrz =>
                simp only [Option.some.injEq] at h
                subst h
                exact ⟨_, _, _, _, _, _, rfl, le_max_right _ _, le_max_right _ _,
                  le_max_right _ _, le_max_right _ _, le_max_right _ _,
                  le_max_right _ _, hget, hflen⟩
              · simp at h
        · simp at h
      · simp at h
    · simp at h

theorem halfTrunc_nonneg (x : Int) (hx : 0 ≤ x) : 0 ≤ halfTrunc x := by
  unfold halfTrunc
  split <;> omega

/-- Inversion of the `'pad_asymmetric_ZYX'` branch; the y low entry
carries the `pad_size[1]` parity term of the source. -/
theorem padAsymZYX_inv (data mask : NArr) (frames : List Int) (nbz nby nbx : Nat)
    (qact : Bool) (qx qz qy : List ℚ) (qrest : List (List ℚ)) (pad_size : List Int)
    (r : CFFTResult) (hsh : data.shape = [nbz, nby, nbx])
    (h : padAsymZYX data mask frames nbz nby nbx qact qx qz qy qrest pad_size =
      some r) :
    ∃ nz1 ny1 nx1 ps1 : Int,
      higher_primes nbz 7 [2] (2 * nbz + 2) = some nz1 ∧
      higher_primes nby 7 [2] (2 * nby + 2) = some ny1 ∧
      higher_primes nbx 7 [2] (2 * nbx + 2) = some nx1 ∧
      pad_size.get? 1 = some ps1 ∧
      r.pad_width = [(padAsymW (nz1 - nbz)).1, (padAsymW (nz1 - nbz)).2,
        halfTrunc ((ny1 - nby) + (ps1 - nby) % 2), (padAsymW (ny1 - nby)).2,
        (padAsymW (nx1 - nbx)).1, (padAsymW (nx1 - nbx)).2] ∧
      r.data.shape.getD 0 0 = ((nbz : Int) + (padAsymW (nz1 - nbz)).1 +
        (padAsymW (nz1 - nbz)).2).toNat ∧
      r.frames.length = ((nbz : Int) + (padAsymW (nz1 - nbz)).1 +
        (padAsymW (nz1 - nbz)).2).toNat := by
  unfold padAsymZYX at h
  split at h
  · next nz1 ny1 nx1 hh1 hh2 hh3 =>
    cases hps : pad_size.get? 1 with
    | none => rw [hps] at h; simp at h
    | some ps1 =>
      rw [hps] at h
      dsimp only at h
      split at h
      · next data' mask' hzd hzm =>
        obtain ⟨ha1, _, _, hb1, _, _, hshape⟩ :=
          zero_pad_inv data nbz nby nbx _ _ _ _ _ _ false data' hsh hzd
        cases hpf : padZFrames (data'.shape.getD 0 0)
            ((([(padAsymW (nz1 - nbz)).1, (padAsymW (nz1 - nbz)).2,
              halfTrunc ((ny1 - nby) + (ps1 - nby) % 2), (padAsymW (ny1 - nby)).2,
              (padAsymW (nx1 - nbx)).1, (padAsymW (nx1 - nbx)).2] :
              List Int).getD 0 0)) nbz frames with
        | none => rw [hpf] at h; simp at h
        | some frames' =>
          rw [hpf] at h
          dsimp only at h
          have hflen : frames'.length = ((nbz : Int) + (padAsymW (nz1 - nbz)).1 +
              (padAsymW (nz1 - nbz)).2).toNat := by
            have := padZFrames_length _ _ _ _ _ hpf
            rw [this, hshape]
            rfl
          have hget : data'.shape.getD 0 0 = ((nbz : Int) + (padAsymW (nz1 - nbz)).1 +
              (padAsymW (nz1 - nbz)).2).toNat := by
            rw [hshape]
            rfl
          cases qact with
          | false =>
            rw [if_neg (by decide : ¬(false = true))] at h
            simp only [Option.some.injEq] at h
            subst h
            exact ⟨nz1, ny1, nx1, ps1, hh1, hh2, hh3, rfl, rfl, hget, hflen⟩
          | true =>
            rw [if_pos rfl] at h
            split at h
            · next qx' qy' qz' hrx hry hrz =>
              simp only [Option.some.injEq] at h
              subst h
              exact ⟨nz1, ny1, nx1, ps1, hh1, hh2, hh3, rfl, rfl, hget, hflen⟩
            · simp at h
      · simp at h
  · simp at h

/-! ### Claim C1: provenance length -/

/-- C1 counterexample: under the crop policy `'crop_symmetric_ZYX'` on
a (9,8,8) volume with peak (4,4,4), the returned data has first-axis
length 8 while the returned provenance vector keeps its original
length 9 (the frame outside the box is marked UNUSED, not removed). -/
theorem center_fft_frames_length_counterexample :
    (center_fft ⟨[9, 8, 8], fun _ => (0 : ℚ)⟩ ⟨[9, 8, 8], fun _ => (0 : ℚ)⟩
        (List.replicate 9 1) "max" "crop_symmetric_ZYX" [4, 4, 4] [] [] []).map
      (fun r => (r.frames.length, r.data.shape.getD 0 0)) = some (9, 8) ∧
    (9 : Nat) ≠ 8 :=
  ⟨rfl, by decide⟩

/-- C1 (amended).  For every 3D data/mask pair and provenance vector
of length `data.shape[0]`, under every policy a successful `center_fft`
returns a provenance vector of length
`max (original frame count) (new first-axis length)`: pad policies
extend it to the padded rocking length, while crop policies and
`'do_nothing'` keep the original length (frames outside the crop are
only marked UNUSED), so the provenance length equals the first-axis
length of the returned data only for pad (and size-preserving)
policies. -/
theorem center_fft_frames_length (dv mv : List Nat → ℚ) (nbz nby nbx : Nat)
    (frames : List Int) (centering fft_option : String)
    (fix_bragg fix_size pad_size : List Int) (q_values : List (List ℚ))
    (r : CFFTResult) (hfr : frames.length = nbz)
    (h : center_fft ⟨[nbz, nby, nbx], dv⟩ ⟨[nbz, nby, nbx], mv⟩ frames centering
      fft_option fix_bragg fix_size pad_size q_values = some r) :
    r.frames.length = max frames.length (r.data.shape.getD 0 0) := by
  obtain ⟨nbz', nby', nbx', z0, y0, x0, hshape, hov, hcore⟩ :=
    center_fft_inv _ _ _ _ _ _ _ _ _ _ h
  have hsh : [nbz, nby, nbx] = [nbz', nby', nbx'] := hshape
  simp only [List.cons.injEq, and_true] at hsh
  obtain ⟨e1, e2, e3⟩ := hsh
  subst e1; subst e2; subst e3
  obtain ⟨hbz, hby, hbx, hdisp⟩ :=
    center_fft_core_inv _ _ _ _ _ _ _ _ _ _ _ _ _ _ _ _ _ _ hcore
  have hnz1 : 1 ≤ nbz := by
    rcases hbz with ⟨hb1, hb2⟩
    omega
  unfold center_fft_dispatch at hdisp
  generalize hO : effOpt fft_option (maxSymA nbz (pyRound z0))
    (maxSymY nby (pyRound y0)) (maxSymA nbx (pyRound x0)) = O at hdisp
  by_cases o1 : O = "crop_symmetric_ZYX"
  · rw [if_pos o1] at hdisp
    obtain ⟨nz1, ny1, nx1, _, hdsh, _, hfl, _⟩ :=
      cropSymZYX_inv _ _ _ _ _ _ _ _ _ _ _ _ _ _ _ _ _ _ rfl hdisp
    rw [hfl, hdsh]
    have := sliceLen_le nbz (pyRound z0 - nz1 / 2) (pyRound z0 + nz1 / 2)
    simp only [List.getD_cons_zero]
    omega
  rw [if_neg o1] at hdisp
  by_cases o2 : O = "crop_asymmetric_ZYX"
  · rw [if_pos o2] at hdisp
    obtain ⟨nz1, ny1, nx1, _, hdsh, _, hfl, _⟩ :=
      cropAsymZYX_inv _ _ _ _ _ _ _ _ _ _ _ _ rfl hdisp
    rw [hfl, hdsh]
    have := sliceLen_le nbz ((nbz : Int) / 2 - nz1 / 2) ((nbz : Int) / 2 + nz1 / 2)
    simp only [List.getD_cons_zero]
    omega
  rw [if_neg o2] at hdisp
  by_cases o3 : O = "pad_symmetric_Z_crop_YX"
  · rw [if_pos o3] at hdisp
    obtain ⟨ps0, ny1, nx1, _, _, _, hv3, _, ha1, hb1, _, hdsh, hfl, _⟩ :=
      padSymZcropYX_inv _ _ _ _ _ _ _ _ _ _ _ _ _ _ _ _ _ _ rfl hdisp
    obtain ⟨hw0, hw1, _⟩ :=
      padSymW_success ps0 (pyRound z0) nbz hnz1 hbz.1 hbz.2 hv3 ha1 hb1
    rw [hfl, hdsh]
    simp only [List.getD_cons_zero]
    omega
  rw [if_neg o3] at hdisp
  by_cases o4 : O = "pad_asymmetric_Z_crop_YX"
  · rw [if_pos o4] at hdisp
    obtain ⟨nz1, ny1, nx1, _, hnz, _, hdsh, hfl, _⟩ :=
      padAsymZcropYX_inv _ _ _ _ _ _ _ _ _ _ _ _ _ _ _ _ rfl hdisp
    obtain ⟨_, _, hle, _⟩ := higher_primes_inv _ _ _ _ _ hnz
    obtain ⟨hw0, hw1, _⟩ := padAsymW_sum (nz1 - nbz) (by omega)
    rw [hfl, hdsh]
    simp only [List.getD_cons_zero]
    omega
  rw [if_neg o4] at hdisp
  by_cases o5 : O = "pad_symmetric_Z"
  · rw [if_pos o5] at hdisp
    obtain ⟨ps0, _, _, _, hv3, ha1, hb1, _, hdsh, hfl, _⟩ :=
      padSymZ_inv _ _ _ _ _ _ _ _ _ _ _ _ _ _ rfl hdisp
    obtain ⟨hw0, hw1, _⟩ :=
      padSymW_success ps0 (pyRound z0) nbz hnz1 hbz.1 hbz.2 hv3 ha1 hb1
    rw [hfl, hdsh]
    simp only [List.getD_cons_zero]
    omega
  rw [if_neg o5] at hdisp
  by_cases o6 : O = "pad_asymmetric_Z"
  · rw [if_pos o6] at hdisp
    obtain ⟨nz1, hnz, _, hdsh, hfl, _⟩ :=
      padAsymZ_inv _ _ _ _ _ _ _ _ _ _ _ _ rfl hdisp
    obtain ⟨_, _, hle, _⟩ := higher_primes_inv _ _ _ _ _ hnz
    obtain ⟨hw0, hw1, _⟩ := padAsymW_sum (nz1 - nbz) (by omega)
    rw [hfl, hdsh]
    simp only [List.getD_cons_zero]
    omega
  rw [if_neg o6] at hdisp
  by_cases o7 : O = "pad_symmetric_ZYX"
  · rw [if_pos o7] at hdisp
    obtain ⟨w0, w1, w2, w3, w4, w5, _, h0, h1, _, _, _, _, hget, hfl⟩ :=
      padSymZYX_inv _ _ _ _ _ _ _ _ _ _ _ _ _ _ _ _ rfl hdisp
    rw [hfl, hget]
    omega
  rw [if_neg o7] at hdisp
  by_cases o8 : O = "pad_asymmetric_ZYX"
  · rw [if_pos o8] at hdisp
    obtain ⟨nz1, ny1, nx1, ps1, hnz, _, _, _, _, hget, hfl⟩ :=
      padAsymZYX_inv _ _ _ _ _ _ _ _ _ _ _ _ _ rfl hdisp
    obtain ⟨_, _, hle, _⟩ := higher_primes_inv _ _ _ _ _ hnz
    obtain ⟨hw0, hw1, _⟩ := padAsymW_sum (nz1 - nbz) (by omega)
    rw [hfl, hget]
    omega
  rw [if_neg o8] at hdisp
  by_cases o9 : O = "do_nothing"
  · rw [if_pos o9] at hdisp
    obtain ⟨hd, _, _, hf, _⟩ := doNothing_inv _ _ _ _ _ _ _ _ _ _ _ _ _ hdisp
    rw [hf, hd]
    simp only [List.getD_cons_zero]
    omega
  rw [if_neg o9] at hdisp
  simp at hdisp

/-- Witness for C1 on a concrete input: the crop policy on a (9,8,8)
volume keeps the 9-entry provenance vector, and `max 9 8 = 9`. -/
theorem center_fft_frames_length_witness :
    (List.replicate 9 (1 : Int)).length = 9 ∧
    ((center_fft ⟨[9, 8, 8], fun _ => (0 : ℚ)⟩ ⟨[9, 8, 8], fun _ => (0 : ℚ)⟩
        (List.replicate 9 1) "max" "crop_symmetric_ZYX" [4, 4, 4] [] [] []).getD
      ⟨⟨[], fun _ => 0⟩, ⟨[], fun _ => 0⟩, [], [], []⟩).frames.length =
      max (List.replicate 9 (1 : Int)).length
        (((center_fft ⟨[9, 8, 8], fun _ => (0 : ℚ)⟩ ⟨[9, 8, 8], fun _ => (0 : ℚ)⟩
            (List.replicate 9 1) "max" "crop_symmetric_ZYX" [4, 4, 4] [] [] []).getD
          ⟨⟨[], fun _ => 0⟩, ⟨[], fun _ => 0⟩, [], [], []⟩).data.shape.getD 0 0) :=
  ⟨rfl, center_fft_frames_length (fun _ => (0 : ℚ)) (fun _ => (0 : ℚ)) 9 8 8
    (List.replicate 9 1) "max" "crop_symmetric_ZYX" [4, 4, 4] [] [] []
    ((center_fft ⟨[9, 8, 8], fun _ => (0 : ℚ)⟩ ⟨[9, 8, 8], fun _ => (0 : ℚ)⟩
        (List.replicate 9 1) "max" "crop_symmetric_ZYX" [4, 4, 4] [] [] []).getD
      ⟨⟨[], fun _ => 0⟩, ⟨[], fun _ => 0⟩, [], [], []⟩) rfl rfl⟩

/-! ### Claim C3: clamping of negative pad widths -/

/-- C3 counterexample: for a (10,2,2) volume with peak frame 5 and
`pad_size = [8,8,8]` (smaller than the rocking extent), the policy
`'pad_symmetric_Z'` computes `pad_width = (-2,-2)` and does NOT clamp
the negative values to 0 — the clamp `max(value, 0)` exists only in the
`'pad_symmetric_ZYX'` branch — so the broadcast of the 10 original
frames into a size-8 array fails and the whole call errors out
(returns `none`) instead of padding with width 0. -/
theorem center_fft_pad_clamp_counterexample :
    padSymW 8 5 10 = (-2, -2) ∧
    center_fft ⟨[10, 2, 2], fun _ => (0 : ℚ)⟩ ⟨[10, 2, 2], fun _ => (0 : ℚ)⟩
      (List.replicate 10 1) "max" "pad_symmetric_Z" [5, 1, 1] [] [8, 8, 8] [] =
      none :=
  ⟨rfl, rfl⟩

/-- C3 (amended).  Only `'pad_symmetric_ZYX'` clamps negative computed
pad widths to 0; the other pad policies use the raw values, and a
negative width there makes the broadcast (and hence the whole call)
fail.  Consequently, on every SUCCESSFUL call with a pad policy the
returned `pad_width` is componentwise non-negative and the rocking
axis does not shrink. -/
theorem center_fft_pad_width_nonneg (dv mv : List Nat → ℚ) (nbz nby nbx : Nat)
    (frames : List Int) (centering fft_option : String)
    (fix_bragg fix_size pad_size : List Int) (q_values : List (List ℚ))
    (r : CFFTResult)
    (hopt : fft_option = "pad_symmetric_Z_crop_YX" ∨
      fft_option = "pad_asymmetric_Z_crop_YX" ∨ fft_option = "pad_symmetric_Z" ∨
      fft_option = "pad_asymmetric_Z" ∨ fft_option = "pad_symmetric_ZYX" ∨
      fft_option = "pad_asymmetric_ZYX")
    (h : center_fft ⟨[nbz, nby, nbx], dv⟩ ⟨[nbz, nby, nbx], mv⟩ frames centering
      fft_option fix_bragg fix_size pad_size q_values = some r) :
    (∀ w ∈ r.pad_width, 0 ≤ w) ∧ nbz ≤ r.data.shape.getD 0 0 := by
  obtain ⟨nbz', nby', nbx', z0, y0, x0, hshape, hov, hcore⟩ :=
    center_fft_inv _ _ _ _ _ _ _ _ _ _ h
  have hsh : [nbz, nby, nbx] = [nbz', nby', nbx'] := hshape
  simp only [List.cons.injEq, and_true] at hsh
  obtain ⟨e1, e2, e3⟩ := hsh
  subst e1; subst e2; subst e3
  obtain ⟨hbz, hby, hbx, hdisp⟩ :=
    center_fft_core_inv _ _ _ _ _ _ _ _ _ _ _ _ _ _ _ _ _ _ hcore
  have hnz1 : 1 ≤ nbz := by
    rcases hbz with ⟨hb1, hb2⟩
    omega
  unfold center_fft_dispatch at hdisp
  generalize hO : effOpt fft_option (maxSymA nbz (pyRound z0))
    (maxSymY nby (pyRound y0)) (maxSymA nbx (pyRound x0)) = O at hdisp
  unfold effOpt at hO
  by_cases hc : maxSymA nbz (pyRound z0) = 0 ∨ maxSymY nby (pyRound y0) = 0 ∨
      maxSymA nbx (pyRound x0) = 0
  · rw [if_pos hc] at hO
    subst hO
    rw [if_neg (by decide : ¬("do_nothing" = "crop_symmetric_ZYX")),
      if_neg (by decide : ¬("do_nothing" = "crop_asymmetric_ZYX")),
      if_neg (by decide : ¬("do_nothing" = "pad_symmetric_Z_crop_YX")),
      if_neg (by decide : ¬("do_nothing" = "pad_asymmetric_Z_crop_YX")),
      if_neg (by decide : ¬("do_nothing" = "pad_symmetric_Z")),
      if_neg (by decide : ¬("do_nothing" = "pad_asymmetric_Z")),
      if_neg (by decide : ¬("do_nothing" = "pad_symmetric_ZYX")),
      if_neg (by decide : ¬("do_nothing" = "pad_asymmetric_ZYX")),
      if_pos rfl] at hdisp
    obtain ⟨hd, _, hpw, _, _⟩ := doNothing_inv _ _ _ _ _ _ _ _ _ _ _ _ _ hdisp
    rw [hpw, hd]
    constructor
    · intro w hw
      simp only [List.mem_cons, List.not_mem_nil, or_false] at hw
      rcases hw with rfl | rfl | rfl | rfl | rfl | rfl <;> omega
    · simp
  · rw [if_neg hc] at hO
    subst hO
    rcases hopt with rfl | rfl | rfl | rfl | rfl | rfl
    · rw [if_neg (by decide : ¬("pad_symmetric_Z_crop_YX" = "crop_symmetric_ZYX")),
        if_neg (by decide : ¬("pad_symmetric_Z_crop_YX" = "crop_asymmetric_ZYX")),
        if_pos rfl] at hdisp
      obtain ⟨ps0, ny1, nx1, _, _, _, hv3, _, ha1, hb1, hpw, hdsh, _, _⟩ :=
        padSymZcropYX_inv _ _ _ _ _ _ _ _ _ _ _ _ _ _ _ _ _ _ rfl hdisp
      obtain ⟨hw0, hw1, hsum⟩ :=
        padSymW_success ps0 (pyRound z0) nbz hnz1 hbz.1 hbz.2 hv3 ha1 hb1
      rw [hpw, hdsh]
      constructor
      · intro w hw
        simp only [List.mem_cons, List.not_mem_nil, or_false] at hw
        rcases hw with rfl | rfl | rfl | rfl | rfl | rfl <;> omega
      · simp only [List.getD_cons_zero]
        omega
    · rw [if_neg (by decide : ¬("pad_asymmetric_Z_crop_YX" = "crop_symmetric_ZYX")),
        if_neg (by decide : ¬("pad_asymmetric_Z_crop_YX" = "crop_asymmetric_ZYX")),
        if_neg (by decide : ¬("pad_asymmetric_Z_crop_YX" = "pad_symmetric_Z_crop_YX")),
        if_pos rfl] at hdisp
      obtain ⟨nz1, ny1, nx1, _, hnz, hpw, hdsh, _, _⟩ :=
        padAsymZcropYX_inv _ _ _ _ _ _ _ _ _ _ _ _ _ _ _ _ rfl hdisp
      obtain ⟨_, _, hle, _⟩ := higher_primes_inv _ _ _ _ _ hnz
      obtain ⟨hw0, hw1, hsum⟩ := padAsymW_sum (nz1 - nbz) (by omega)
      rw [hpw, hdsh]
      constructor
      · intro w hw
        simp only [List.mem_cons, List.not_mem_nil, or_false] at hw
        rcases hw with rfl | rfl | rfl | rfl | rfl | rfl <;> omega
      · simp only [List.getD_cons_zero]
        omega
    · rw [if_neg (by decide : ¬("pad_symmetric_Z" = "crop_symmetric_ZYX")),
        if_neg (by decide : ¬("pad_symmetric_Z" = "crop_asymmetric_ZYX")),
        if_neg (by decide : ¬("pad_symmetric_Z" = "pad_symmetric_Z_crop_YX")),
        if_neg (by decide : ¬("pad_symmetric_Z" = "pad_asymmetric_Z_crop_YX")),
        if_pos rfl] at hdisp
      obtain ⟨ps0, _, _, _, hv3, ha1, hb1, hpw, hdsh, _, _⟩ :=
        padSymZ_inv _ _ _ _ _ _ _ _ _ _ _ _ _ _ rfl hdisp
      obtain ⟨hw0, hw1, hsum⟩ :=
        padSymW_success ps0 (pyRound z0) nbz hnz1 hbz.1 hbz.2 hv3 ha1 hb1
      rw [hpw, hdsh]
      constructor
      · intro w hw
        simp only [List.mem_cons, List.not_mem_nil, or_false] at hw
        rcases hw with rfl | rfl | rfl | rfl | rfl | rfl <;> omega
      · simp only [List.getD_cons_zero]
        omega
    · rw [if_neg (by decide : ¬("pad_asymmetric_Z" = "crop_symmetric_ZYX")),
        if_neg (by decide : ¬("pad_asymmetric_Z" = "crop_asymmetric_ZYX")),
        if_neg (by decide : ¬("pad_asymmetric_Z" = "pad_symmetric_Z_crop_YX")),
        if_neg (by decide : ¬("pad_asymmetric_Z" = "pad_asymmetric_Z_crop_YX")),
        if_neg (by decide : ¬("pad_asymmetric_Z" = "pad_symmetric_Z")),
        if_pos rfl] at hdisp
      obtain ⟨nz1, hnz, hpw, hdsh, _, _⟩ :=
        padAsymZ_inv _ _ _ _ _ _ _ _ _ _ _ _ rfl hdisp
      obtain ⟨_, _, hle, _⟩ := higher_primes_inv _ _ _ _ _ hnz
      obtain ⟨hw0, hw1, hsum⟩ := padAsymW_sum (nz1 - nbz) (by omega)
      rw [hpw, hdsh]
      constructor
      · intro w hw
        simp only [List.mem_cons, List.not_mem_nil, or_false] at hw
        rcases hw with rfl | rfl | rfl | rfl | rfl | rfl <;> omega
      · simp only [List.getD_cons_zero]
        omega
    · rw [if_neg (by decide : ¬("pad_symmetric_ZYX" = "crop_symmetric_ZYX")),
        if_neg (by decide : ¬("pad_symmetric_ZYX" = "crop_asymmetric_ZYX")),
        if_neg (by decide : ¬("pad_symmetric_ZYX" = "pad_symmetric_Z_crop_YX")),
        if_neg (by decide : ¬("pad_symmetric_ZYX" = "pad_asymmetric_Z_crop_YX")),
        if_neg (by decide : ¬("pad_symmetric_ZYX" = "pad_symmetric_Z")),
        if_neg (by decide : ¬("pad_symmetric_ZYX" = "pad_asymmetric_Z")),
        if_pos rfl] at hdisp
      obtain ⟨w0, w1, w2, w3, w4, w5, hpw, h0, h1, h2, h3, h4, h5, hget, _⟩ :=
        padSymZYX_inv _ _ _ _ _ _ _ _ _ _ _ _ _ _ _ _ rfl hdisp
      rw [hpw]
      constructor
      · intro w hw
        simp only [List.mem_cons, List.not_mem_nil, or_false] at hw
        rcases hw with rfl | rfl | rfl | rfl | rfl | rfl <;> omega
      · rw [hget]
        omega
    · rw [if_neg (by decide : ¬("pad_asymmetric_ZYX" = "crop_symmetric_ZYX")),
        if_neg (by decide : ¬("pad_asymmetric_ZYX" = "crop_asymmetric_ZYX")),
        if_neg (by decide : ¬("pad_asymmetric_ZYX" = "pad_symmetric_Z_crop_YX")),
        if_neg (by decide : ¬("pad_asymmetric_ZYX" = "pad_asymmetric_Z_crop_YX")),
        if_neg (by decide : ¬("pad_asymmetric_ZYX" = "pad_symmetric_Z")),
        if_neg (by decide : ¬("pad_asymmetric_ZYX" = "pad_asymmetric_Z")),
        if_neg (by decide : ¬("pad_asymmetric_ZYX" = "pad_symmetric_ZYX")),
        if_pos rfl] at hdisp
      obtain ⟨nz1, ny1, nx1, ps1, hnz, hny, hnx, _, hpw, hget, _⟩ :=
        padAsymZYX_inv _ _ _ _ _ _ _ _ _ _ _ _ _ rfl hdisp
      obtain ⟨_, _, hlez, _⟩ := higher_primes_inv _ _ _ _ _ hnz
      obtain ⟨_, _, hley, _⟩ := higher_primes_inv _ _ _ _ _ hny
      obtain ⟨_, _, hlex, _⟩ := higher_primes_inv _ _ _ _ _ hnx
      obtain ⟨hz0, hz1, _⟩ := padAsymW_sum (nz1 - nbz) (by omega)
      obtain ⟨_, hy1, _⟩ := padAsymW_sum (ny1 - nby) (by omega)
      obtain ⟨hx0, hx1, _⟩ := padAsymW_sum (nx1 - nbx) (by omega)
      have hyl : 0 ≤ halfTrunc ((ny1 - nby) + (ps1 - nby) % 2) := by
        apply halfTrunc_nonneg
        have := Int.emod_nonneg (ps1 - (nby : Int)) (by norm_num : (2 : Int) ≠ 0)
        omega
      rw [hpw]
      constructor
      · intro w hw
        simp only [List.mem_cons, List.not_mem_nil, or_false] at hw
        rcases hw with rfl | rfl | rfl | rfl | rfl | rfl <;> omega
      · rw [hget]
        omega

/-- Witness for the amended C3 on a concrete input: padding a
(10,2,2) volume to rocking size 16 yields `pad_width = [3,3,0,0,0,0]`
(all non-negative) and a first-axis length 16 ≥ 10. -/
theorem center_fft_pad_width_nonneg_witness :
    (("pad_symmetric_Z" : String) = "pad_symmetric_Z_crop_YX" ∨
      ("pad_symmetric_Z" : String) = "pad_asymmetric_Z_crop_YX" ∨
      ("pad_symmetric_Z" : String) = "pad_symmetric_Z" ∨
      ("pad_symmetric_Z" : String) = "pad_asymmetric_Z" ∨
      ("pad_symmetric_Z" : String) = "pad_symmetric_ZYX" ∨
      ("pad_symmetric_Z" : String) = "pad_asymmetric_ZYX") ∧
    ((∀ w ∈ ((center_fft ⟨[10, 2, 2], fun _ => (0 : ℚ)⟩
          ⟨[10, 2, 2], fun _ => (0 : ℚ)⟩ (List.replicate 10 1) "max"
          "pad_symmetric_Z" [5, 1, 1] [] [16, 16, 16] []).getD
        ⟨⟨[], fun _ => 0⟩, ⟨[], fun _ => 0⟩, [], [], []⟩).pad_width, 0 ≤ w) ∧
      10 ≤ ((center_fft ⟨[10, 2, 2], fun _ => (0 : ℚ)⟩
          ⟨[10, 2, 2], fun _ => (0 : ℚ)⟩ (List.replicate 10 1) "max"
          "pad_symmetric_Z" [5, 1, 1] [] [16, 16, 16] []).getD
        ⟨⟨[], fun _ => 0⟩, ⟨[], fun _ => 0⟩, [], [], []⟩).data.shape.getD 0 0) :=
  ⟨Or.inr (Or.inr (Or.inl rfl)),
    center_fft_pad_width_nonneg (fun _ => (0 : ℚ)) (fun _ => (0 : ℚ)) 10 2 2
      (List.replicate 10 1) "max" "pad_symmetric_Z" [5, 1, 1] [] [16, 16, 16] []
      ((center_fft ⟨[10, 2, 2], fun _ => (0 : ℚ)⟩ ⟨[10, 2, 2], fun _ => (0 : ℚ)⟩
          (List.replicate 10 1) "max" "pad_symmetric_Z" [5, 1, 1] [] [16, 16, 16]
          []).getD ⟨⟨[], fun _ => 0⟩, ⟨[], fun _ => 0⟩, [], [], []⟩)
      (Or.inr (Or.inr (Or.inl rfl))) rfl⟩

/-! ### Claim C2: q-grid spacing and length invariants -/

/-- `l` is linearly spaced with step `d` (an arithmetic progression). -/
def isArith (d : ℚ) (l : List ℚ) : Prop :=
  ∀ i : Nat, i + 1 < l.length → l.getD (i + 1) 0 = l.getD i 0 + d

/-- Python slicing preserves linear spacing. -/
theorem isArith_pySliceL (d : ℚ) (l : List ℚ) (a b : Int) (h : isArith d l) :
    isArith d (pySliceL l a b) := by
  intro i hi
  unfold pySliceL at *
  rw [List.length_drop, List.length_take] at hi
  have h1 : (List.drop (sliceIdx l.length a) (List.take (sliceIdx l.length b) l))[i]? =
      l[sliceIdx l.length a + i]? := by
    rw [List.getElem?_drop, List.getElem?_take, if_pos (by omega)]
  have h2 : (List.drop (sliceIdx l.length a)
      (List.take (sliceIdx l.length b) l))[i + 1]? =
      l[sliceIdx l.length a + (i + 1)]? := by
    rw [List.getElem?_drop, List.getElem?_take, if_pos (by omega)]
  rw [List.getD_eq_getElem?_getD, List.getD_eq_getElem?_getD, h1, h2]
  have h3 := h (sliceIdx l.length a + i) (by omega)
  rw [List.getD_eq_getElem?_getD, List.getD_eq_getElem?_getD] at h3
  rw [show sliceIdx l.length a + (i + 1) = (sliceIdx l.length a + i) + 1 from by omega]
  exact h3

/-- The rebuilt q-grid has exactly the requested number of samples. -/
theorem rebuildQ_length (q : List ℚ) (pw : Int) (n : Nat) (q1 : List ℚ)
    (h : rebuildQ q pw n = some q1) : q1.length = n := by
  rcases q with _ | ⟨a, _ | ⟨b, rest⟩⟩
  · simp [rebuildQ] at h
  · simp [rebuildQ] at h
  · simp only [rebuildQ, Option.some.injEq] at h
    subst h
    rw [List.length_map, List.length_range]

/-- The rebuilt q-grid keeps the original spacing `q[1]-q[0]`. -/
theorem rebuildQ_isArith (d : ℚ) (q : List ℚ) (pw : Int) (n : Nat) (q1 : List ℚ)
    (hq : isArith d q) (h : rebuildQ q pw n = some q1) : isArith d q1 := by
  rcases q with _ | ⟨a, _ | ⟨b, rest⟩⟩
  · simp [rebuildQ] at h
  · simp [rebuildQ] at h
  · simp only [rebuildQ, Option.some.injEq] at h
    subst h
    have hd : b - a = d := by
      have h0 := hq 0 (by simp only [List.length_cons]; omega)
      rw [List.getD_cons_succ, List.getD_cons_zero, List.getD_cons_zero] at h0
      linarith
    intro i hi
    rw [List.length_map, List.length_range] at hi
    have e1 : ((List.range n).map
        (fun i : Nat => (a - pw * (b - a)) + (i : ℚ) * (b - a)))[i]? =
        some ((a - pw * (b - a)) + (i : ℚ) * (b - a)) := by
      rw [List.getElem?_map, List.getElem?_range (by omega)]
      rfl
    have e2 : ((List.range n).map
        (fun i : Nat => (a - pw * (b - a)) + (i : ℚ) * (b - a)))[i + 1]? =
        some ((a - pw * (b - a)) + ((i + 1 : Nat) : ℚ) * (b - a)) := by
      rw [List.getElem?_map, List.getElem?_range (by omega)]
      rfl
    rw [List.getD_eq_getElem?_getD, List.getD_eq_getElem?_getD, e1, e2]
    dsimp only [Option.getD]
    rw [hd]
    push_cast
    ring

/-- The two-sample unit-spaced grid is linearly spaced. -/
theorem isArith_unit_step : isArith 1 [(0 : ℚ), 1] := by
  intro i hi
  simp only [List.length_cons, List.length_nil] at hi
  have hi0 : i = 0 := by omega
  subst hi0
  rw [List.getD_cons_succ, List.getD_cons_zero, List.getD_cons_zero]
  norm_num

/-- C2 counterexample: under `'pad_symmetric_ZYX'` on a (2,9,2) volume
with `pad_size = [8,8,8]`, the y pad widths are negative and clamped to
0, so the y axis stays 9 while the q array of that axis is rebuilt with
`pad_size[1] = 8` samples: the returned data shape is [8,9,8] but the
returned q lengths are [8,8,8] — the q grids are no longer
co-registered with the array axes. -/
theorem center_fft_q_length_counterexample :
    (center_fft ⟨[2, 9, 2], fun _ => (0 : ℚ)⟩ ⟨[2, 9, 2], fun _ => (0 : ℚ)⟩
        [1, 1] "max" "pad_symmetric_ZYX" [1, 4, 1] [] [8, 8, 8]
        [[0, 1], [0, 1, 2, 3, 4, 5, 6, 7, 8], [0, 1]]).map
      (fun r => (r.data.shape, r.q_values.map List.length)) =
      some ([8, 9, 8], [8, 8, 8]) ∧ ¬((9 : Nat) = 8) :=
  ⟨rfl, by decide⟩

/-- C2 (amended).  For the two crop policies, the three pad-Z policies
and `'do_nothing'` (but NOT for `'pad_symmetric_ZYX'` and
`'pad_asymmetric_ZYX'`, whose y-axis clamp resp. y-parity slip can
desynchronise the q length from the array axis): if the q triple
(qx, qz, qy) is co-registered with the input axes and linearly spaced,
then on success the returned q triple is again linearly spaced with
the SAME per-axis spacing, and each returned q length equals the
corresponding axis length of the returned data. -/
theorem center_fft_q_spacing (dv mv : List Nat → ℚ) (nbz nby nbx : Nat)
    (frames : List Int) (centering fft_option : String)
    (fix_bragg fix_size pad_size : List Int) (qx qz qy : List ℚ) (dx dz dy : ℚ)
    (r : CFFTResult)
    (hopt : fft_option = "crop_symmetric_ZYX" ∨ fft_option = "crop_asymmetric_ZYX" ∨
      fft_option = "pad_symmetric_Z_crop_YX" ∨
      fft_option = "pad_asymmetric_Z_crop_YX" ∨ fft_option = "pad_symmetric_Z" ∨
      fft_option = "pad_asymmetric_Z" ∨ fft_option = "do_nothing")
    (hlx : qx.length = nbz) (hlz : qz.length = nby) (hly : qy.length = nbx)
    (hax : isArith dx qx) (haz : isArith dz qz) (hay : isArith dy qy)
    (h : center_fft ⟨[nbz, nby, nbx], dv⟩ ⟨[nbz, nby, nbx], mv⟩ frames centering
      fft_option fix_bragg fix_size pad_size [qx, qz, qy] = some r) :
    ∃ qx1 qz1 qy1 : List ℚ,
      r.q_values = [qx1, qz1, qy1] ∧
      isArith dx qx1 ∧ isArith dz qz1 ∧ isArith dy qy1 ∧
      qx1.length = r.data.shape.getD 0 0 ∧ qz1.length = r.data.shape.getD 1 0 ∧
      qy1.length = r.data.shape.getD 2 0 := by
  obtain ⟨nbz', nby', nbx', z0, y0, x0, hshape, hov, hcore⟩ :=
    center_fft_inv _ _ _ _ _ _ _ _ _ _ h
  have hsh : [nbz, nby, nbx] = [nbz', nby', nbx'] := hshape
  simp only [List.cons.injEq, and_true] at hsh
  obtain ⟨e1, e2, e3⟩ := hsh
  subst e1; subst e2; subst e3
  rw [show (decide (3 ≤ ([qx, qz, qy] : List (List ℚ)).length)) = true from rfl,
    show ([qx, qz, qy] : List (List ℚ)).getD 0 [] = qx from rfl,
    show ([qx, qz, qy] : List (List ℚ)).getD 1 [] = qz from rfl,
    show ([qx, qz, qy] : List (List ℚ)).getD 2 [] = qy from rfl,
    show ([qx, qz, qy] : List (List ℚ)).drop 3 = [] from rfl] at hcore
  obtain ⟨hbz, hby, hbx, hdisp⟩ :=
    center_fft_core_inv _ _ _ _ _ _ _ _ _ _ _ _ _ _ _ _ _ _ hcore
  have hnz1 : 1 ≤ nbz := by
    rcases hbz with ⟨hb1, hb2⟩
    omega
  unfold center_fft_dispatch at hdisp
  generalize hO : effOpt fft_option (maxSymA nbz (pyRound z0))
    (maxSymY nby (pyRound y0)) (maxSymA nbx (pyRound x0)) = O at hdisp
  unfold effOpt at hO
  by_cases hc : maxSymA nbz (pyRound z0) = 0 ∨ maxSymY nby (pyRound y0) = 0 ∨
      maxSymA nbx (pyRound x0) = 0
  · rw [if_pos hc] at hO
    subst hO
    rw [if_neg (by decide : ¬("do_nothing" = "crop_symmetric_ZYX")),
      if_neg (by decide : ¬("do_nothing" = "crop_asymmetric_ZYX")),
      if_neg (by decide : ¬("do_nothing" = "pad_symmetric_Z_crop_YX")),
      if_neg (by decide : ¬("do_nothing" = "pad_asymmetric_Z_crop_YX")),
      if_neg (by decide : ¬("do_nothing" = "pad_symmetric_Z")),
      if_neg (by decide : ¬("do_nothing" = "pad_asymmetric_Z")),
      if_neg (by decide : ¬("do_nothing" = "pad_symmetric_ZYX")),
      if_neg (by decide : ¬("do_nothing" = "pad_asymmetric_ZYX")),
      if_pos rfl] at hdisp
    obtain ⟨hd, _, _, _, hqv⟩ := doNothing_inv _ _ _ _ _ _ _ _ _ _ _ _ _ hdisp
    refine ⟨qx, qz, qy, ?_, hax, haz, hay, ?_, ?_, ?_⟩
    · rw [hqv rfl]
      simp
    · rw [hd]
      exact hlx
    · rw [hd]
      exact hlz
    · rw [hd]
      exact hly
  · rw [if_neg hc] at hO
    subst hO
    rcases hopt with rfl | rfl | rfl | rfl | rfl | rfl | rfl
    · rw [if_pos rfl] at hdisp
      obtain ⟨nz1, ny1, nx1, _, hdsh, _, _, hqv⟩ :=
        cropSymZYX_inv _ _ _ _ _ _ _ _ _ _ _ _ _ _ _ _ _ _ rfl hdisp
      refine ⟨pySliceL qx (pyRound z0 - nz1 / 2) (pyRound z0 + nz1 / 2),
        pySliceL qz (pyRound y0 - ny1 / 2) (pyRound y0 + ny1 / 2),
        pySliceL qy (pyRound x0 - nx1 / 2) (pyRound x0 + nx1 / 2),
        ?_, isArith_pySliceL _ _ _ _ hax, isArith_pySliceL _ _ _ _ haz,
        isArith_pySliceL _ _ _ _ hay, ?_, ?_, ?_⟩
      · rw [hqv rfl]
        simp
      · rw [hdsh, pySliceL_length, hlx]
        simp
      · rw [hdsh, pySliceL_length, hlz]
        simp
      · rw [hdsh, pySliceL_length, hly]
        simp
    · rw [if_neg (by decide : ¬("crop_asymmetric_ZYX" = "crop_symmetric_ZYX")),
        if_pos rfl] at hdisp
      obtain ⟨nz1, ny1, nx1, _, hdsh, _, _, hqv⟩ :=
        cropAsymZYX_inv _ _ _ _ _ _ _ _ _ _ _ _ rfl hdisp
      refine ⟨pySliceL qx ((nbz : Int) / 2 - nz1 / 2) ((nbz : Int) / 2 + nz1 / 2),
        pySliceL qz ((nby : Int) / 2 - ny1 / 2) ((nby : Int) / 2 + ny1 / 2),
        pySliceL qy ((nbx : Int) / 2 - nx1 / 2) ((nbx : Int) / 2 + nx1 / 2),
        ?_, isArith_pySliceL _ _ _ _ hax, isArith_pySliceL _ _ _ _ haz,
        isArith_pySliceL _ _ _ _ hay, ?_, ?_, ?_⟩
      · rw [hqv rfl]
        simp
      · rw [hdsh, pySliceL_length, hlx]
        simp
      · rw [hdsh, pySliceL_length, hlz]
        simp
      · rw [hdsh, pySliceL_length, hly]
        simp
    · rw [if_neg (by decide : ¬("pad_symmetric_Z_crop_YX" = "crop_symmetric_ZYX")),
        if_neg (by decide : ¬("pad_symmetric_Z_crop_YX" = "crop_asymmetric_ZYX")),
        if_pos rfl] at hdisp
      obtain ⟨ps0, ny1, nx1, _, _, _, hv3, _, ha1, hb1, _, hdsh, _, hqv⟩ :=
        padSymZcropYX_inv _ _ _ _ _ _ _ _ _ _ _ _ _ _ _ _ _ _ rfl hdisp
      obtain ⟨qx1, hrq, hqv1⟩ := hqv rfl
      obtain ⟨hw0, hw1, hsum⟩ :=
        padSymW_success ps0 (pyRound z0) nbz hnz1 hbz.1 hbz.2 hv3 ha1 hb1
      refine ⟨qx1, pySliceL qz (pyRound y0 - ny1 / 2) (pyRound y0 + ny1 / 2),
        pySliceL qy (pyRound x0 - nx1 / 2) (pyRound x0 + nx1 / 2),
        ?_, rebuildQ_isArith _ _ _ _ _ hax hrq, isArith_pySliceL _ _ _ _ haz,
        isArith_pySliceL _ _ _ _ hay, ?_, ?_, ?_⟩
      · rw [hqv1]
        simp
      · rw [hdsh, rebuildQ_length _ _ _ _ hrq]
        simp only [List.getD_cons_zero]
        omega
      · rw [hdsh, pySliceL_length, hlz]
        simp
      · rw [hdsh, pySliceL_length, hly]
        simp
    · rw [if_neg (by decide : ¬("pad_asymmetric_Z_crop_YX" = "crop_symmetric_ZYX")),
        if_neg (by decide : ¬("pad_asymmetric_Z_crop_YX" = "crop_asymmetric_ZYX")),
        if_neg (by decide : ¬("pad_asymmetric_Z_crop_YX" = "pad_symmetric_Z_crop_YX")),
        if_pos rfl] at hdisp
      obtain ⟨nz1, ny1, nx1, _, hnz, _, hdsh, _, hqv⟩ :=
        padAsymZcropYX_inv _ _ _ _ _ _ _ _ _ _ _ _ _ _ _ _ rfl hdisp
      obtain ⟨qx1, hrq, hqv1⟩ := hqv rfl
      obtain ⟨_, _, hle, _⟩ := higher_primes_inv _ _ _ _ _ hnz
      obtain ⟨hw0, hw1, hsum⟩ := padAsymW_sum (nz1 - nbz) (by omega)
      refine ⟨qx1, pySliceL qz (pyRound y0 - ny1 / 2) (pyRound y0 + ny1 / 2),
        pySliceL qy (pyRound x0 - nx1 / 2) (pyRound x0 + nx1 / 2),
        ?_, rebuildQ_isArith _ _ _ _ _ hax hrq, isArith_pySliceL _ _ _ _ haz,
        isArith_pySliceL _ _ _ _ hay, ?_, ?_, ?_⟩
      · rw [hqv1]
        simp
      · rw [hdsh, rebuildQ_length _ _ _ _ hrq]
        simp only [List.getD_cons_zero]
        omega
      · rw [hdsh, pySliceL_length, hlz]
        simp
      · rw [hdsh, pySliceL_length, hly]
        simp
    · rw [if_neg (by decide : ¬("pad_symmetric_Z" = "crop_symmetric_ZYX")),
        if_neg (by decide : ¬("pad_symmetric_Z" = "crop_asymmetric_ZYX")),
        if_neg (by decide : ¬("pad_symmetric_Z" = "pad_symmetric_Z_crop_YX")),
        if_neg (by decide : ¬("pad_symmetric_Z" = "pad_asymmetric_Z_crop_YX")),
        if_pos rfl] at hdisp
      obtain ⟨ps0, _, _, _, hv3, ha1, hb1, _, hdsh, _, hqv⟩ :=
        padSymZ_inv _ _ _ _ _ _ _ _ _ _ _ _ _ _ rfl hdisp
      obtain ⟨qx1, hrq, hqv1⟩ := hqv rfl
      obtain ⟨hw0, hw1, hsum⟩ :=
        padSymW_success ps0 (pyRound z0) nbz hnz1 hbz.1 hbz.2 hv3 ha1 hb1
      refine ⟨qx1, qz, qy, ?_, rebuildQ_isArith _ _ _ _ _ hax hrq, haz, hay,
        ?_, ?_, ?_⟩
      · rw [hqv1]
        simp
      · rw [hdsh, rebuildQ_length _ _ _ _ hrq]
        simp only [List.getD_cons_zero]
        omega
      · rw [hdsh]
        simp only [List.getD_cons_succ, List.getD_cons_zero]
        exact hlz
      · rw [hdsh]
        simp only [List.getD_cons_succ, List.getD_cons_zero]
        exact hly
    · rw [if_neg (by decide : ¬("pad_asymmetric_Z" = "crop_symmetric_ZYX")),
        if_neg (by decide : ¬("pad_asymmetric_Z" = "crop_asymmetric_ZYX")),
        if_neg (by decide : ¬("pad_asymmetric_Z" = "pad_symmetric_Z_crop_YX")),
        if_neg (by decide : ¬("pad_asymmetric_Z" = "pad_asymmetric_Z_crop_YX")),
        if_neg (by decide : ¬("pad_asymmetric_Z" = "pad_symmetric_Z")),
        if_pos rfl] at hdisp
      obtain ⟨nz1, hnz, _, hdsh, _, hqv⟩ :=
        padAsymZ_inv _ _ _ _ _ _ _ _ _ _ _ _ rfl hdisp
      obtain ⟨qx1, hrq, hqv1⟩ := hqv rfl
      obtain ⟨_, _, hle, _⟩ := higher_primes_inv _ _ _ _ _ hnz
      obtain ⟨hw0, hw1, hsum⟩ := padAsymW_sum (nz1 - nbz) (by omega)
      refine ⟨qx1, qz, qy, ?_, rebuildQ_isArith _ _ _ _ _ hax hrq, haz, hay,
        ?_, ?_, ?_⟩
      · rw [hqv1]
        simp
      · rw [hdsh, rebuildQ_length _ _ _ _ hrq]
        simp only [List.getD_cons_zero]
        omega
      · rw [hdsh]
        simp only [List.getD_cons_succ, List.getD_cons_zero]
        exact hlz
      · rw [hdsh]
        simp only [List.getD_cons_succ, List.getD_cons_zero]
        exact hly
    · rw [if_neg (by decide : ¬("do_nothing" = "crop_symmetric_ZYX")),
        if_neg (by decide : ¬("do_nothing" = "crop_asymmetric_ZYX")),
        if_neg (by decide : ¬("do_nothing" = "pad_symmetric_Z_crop_YX")),
        if_neg (by decide : ¬("do_nothing" = "pad_asymmetric_Z_crop_YX")),
        if_neg (by decide : ¬("do_nothing" = "pad_symmetric_Z")),
        if_neg (by decide : ¬("do_nothing" = "pad_asymmetric_Z")),
        if_neg (by decide : ¬("do_nothing" = "pad_symmetric_ZYX")),
        if_neg (by decide : ¬("do_nothing" = "pad_asymmetric_ZYX")),
        if_pos rfl] at hdisp
      obtain ⟨hd, _, _, _, hqv⟩ := doNothing_inv _ _ _ _ _ _ _ _ _ _ _ _ _ hdisp
      refine ⟨qx, qz, qy, ?_, hax, haz, hay, ?_, ?_, ?_⟩
      · rw [hqv rfl]
        simp
      · rw [hd]
        exact hlx
      · rw [hd]
        exact hlz
      · rw [hd]
        exact hly

/-- Witness for the amended C2 on a concrete input: the pass-through
policy on a (2,2,2) volume with three unit-spaced two-sample q grids
returns three unit-spaced q grids co-registered with the axes. -/
theorem center_fft_q_spacing_witness :
    isArith 1 [(0 : ℚ), 1] ∧
    (∃ qx1 qz1 qy1 : List ℚ,
      ((center_fft ⟨[2, 2, 2], fun _ => (0 : ℚ)⟩ ⟨[2, 2, 2], fun _ => (0 : ℚ)⟩
          [1, 1] "max" "do_nothing" [1, 1, 1] [] []
          [[(0 : ℚ), 1], [(0 : ℚ), 1], [(0 : ℚ), 1]]).getD
        ⟨⟨[], fun _ => 0⟩, ⟨[], fun _ => 0⟩, [], [], []⟩).q_values =
        [qx1, qz1, qy1] ∧
      isArith 1 qx1 ∧ isArith 1 qz1 ∧ isArith 1 qy1 ∧
      qx1.length = ((center_fft ⟨[2, 2, 2], fun _ => (0 : ℚ)⟩
          ⟨[2, 2, 2], fun _ => (0 : ℚ)⟩ [1, 1] "max" "do_nothing" [1, 1, 1] [] []
          [[(0 : ℚ), 1], [(0 : ℚ), 1], [(0 : ℚ), 1]]).getD
        ⟨⟨[], fun _ => 0⟩, ⟨[], fun _ => 0⟩, [], [], []⟩).data.shape.getD 0 0 ∧
      qz1.length = ((center_fft ⟨[2, 2, 2], fun _ => (0 : ℚ)⟩
          ⟨[2, 2, 2], fun _ => (0 : ℚ)⟩ [1, 1] "max" "do_nothing" [1, 1, 1] [] []
          [[(0 : ℚ), 1], [(0 : ℚ), 1], [(0 : ℚ), 1]]).getD
        ⟨⟨[], fun _ => 0⟩, ⟨[], fun _ => 0⟩, [], [], []⟩).data.shape.getD 1 0 ∧
      qy1.length = ((center_fft ⟨[2, 2, 2], fun _ => (0 : ℚ)⟩
          ⟨[2, 2, 2], fun _ => (0 : ℚ)⟩ [1, 1] "max" "do_nothing" [1, 1, 1] [] []
          [[(0 : ℚ), 1], [(0 : ℚ), 1], [(0 : ℚ), 1]]).getD
        ⟨⟨[], fun _ => 0⟩, ⟨[], fun _ => 0⟩, [], [], []⟩).data.shape.getD 2 0) :=
  ⟨isArith_unit_step,
    center_fft_q_spacing (fun _ => (0 : ℚ)) (fun _ => (0 : ℚ)) 2 2 2 [1, 1] "max"
      "do_nothing" [1, 1, 1] [] [] [(0 : ℚ), 1] [(0 : ℚ), 1] [(0 : ℚ), 1] 1 1 1
      ((center_fft ⟨[2, 2, 2], fun _ => (0 : ℚ)⟩ ⟨[2, 2, 2], fun _ => (0 : ℚ)⟩
          [1, 1] "max" "do_nothing" [1, 1, 1] [] []
          [[(0 : ℚ), 1], [(0 : ℚ), 1], [(0 : ℚ), 1]]).getD
        ⟨⟨[], fun _ => 0⟩, ⟨[], fun _ => 0⟩, [], [], []⟩)
      (Or.inr (Or.inr (Or.inr (Or.inr (Or.inr (Or.inr rfl))))))
      rfl rfl rfl isArith_unit_step isArith_unit_step isArith_unit_step rfl⟩

end BCDI
